import Mathlib

/-!
# bistro-92: order-event pipeline

A shallow embedding of the order store activities
(`order-service/temporal/activities.go`), the two workflows
(`order-service/temporal/workflows.go`), the order handlers
(`order-service/main.go`) and the notification hub
(`notification-service/main.go`), followed by the properties proved about them.

Conventions of the embedding.

* Go `int` values (identifiers, table numbers, quantities) are `Int`; no
  arithmetic is performed on them by the embedded code.
* A `float64` is its exact value counted in units of `2^-1074`, the smallest
  positive `float64`; every operation rounds its exact result to the nearest
  `float64`, ties to even.  Prices, which reach the program through JSON
  decoding only, are finite; a total can overflow to an infinity.
* A Go `map` is an association list; the order of the list is the order in
  which a `range` loop visits it.  Where the result of the code depends on
  that order, the order is an explicit parameter.
* The clock, the outcome of I/O (a failing statement, a failing write) and the
  identifier handed out by the database are parameters of each operation.
-/

namespace Bistro92

/-! ## `float64` arithmetic -/

/-- The number of binary digits of `x`, computed with `fuel` halvings at most. -/
def bitLengthAux : Nat → Nat → Nat
  | 0, _ => 0
  | fuel + 1, x => if x = 0 then 0 else bitLengthAux fuel (x / 2) + 1

/-- The number of binary digits of `x` (`0` for `0`). -/
def bitLength (x : Nat) : Nat := bitLengthAux x x

/-- The integer nearest to `a / b`, the even one of the two when `a / b` lies
half-way. -/
def roundHalfEven (a b : Nat) : Nat :=
  let f := a / b
  let r := a % b
  if 2 * r < b then f else if b < 2 * r then f + 1 else if f % 2 = 0 then f else f + 1

/-- Rounding to 53 significant binary digits: the number of units of the
`float64` magnitude nearest to `p / q` units, ties to even.  Magnitudes below
`2^53` units are spaced one unit apart (subnormals and the first normal
binade); above, the `s` low digits in excess of 53 are rounded away. -/
def roundUnits (p q : Nat) : Nat :=
  let s := bitLength (p / q) - 53
  roundHalfEven p (q <<< s) <<< s

/-- A finite `float64`: the value `(-1)^neg * units * 2^-1074`.  The value one
is `1 <<< 1074` units. -/
structure Finite64 where
  neg : Bool
  units : Nat
deriving DecidableEq

/-- A `float64`: a finite value in units of `2^-1074`, an infinity, or NaN. -/
inductive F64 where
  | finite (neg : Bool) (units : Nat)
  | inf (neg : Bool)
  | nan
deriving DecidableEq

/-- The zero value of a `float64` variable. -/
instance : OfNat F64 0 := ⟨.finite false 0⟩

/-- A finite `float64` as a `float64`. -/
def Finite64.toF64 (x : Finite64) : F64 := .finite x.neg x.units

/-- The `float64` nearest to `(-1)^neg * p / q` units; a rounded magnitude of
`2^1024` (that is `1 <<< 2098` units) or more overflows to the infinity. -/
def F64.round (neg : Bool) (p q : Nat) : F64 :=
  let n := roundUnits p q
  if 1 <<< 2098 ≤ n then .inf neg else .finite neg n

/-- The `float64` a non-negative JSON number `num / den` decodes to (a number
below the overflow threshold; a larger one is a decoding error). -/
def Finite64.ofDecimal (num den : Nat) : Finite64 :=
  { neg := false, units := roundUnits (num <<< 1074) den }

/-- The conversion `float64(k)` of a Go `int`. -/
def F64.ofInt (k : Int) : F64 :=
  F64.round (decide (k < 0)) (k.natAbs <<< 1074) 1

/-- The `float64` sum `x + y`. -/
def F64.add : F64 → F64 → F64
  | .nan, _ => .nan
  | _, .nan => .nan
  | .inf a, .inf b => if a = b then .inf a else .nan
  | .inf a, .finite _ _ => .inf a
  | .finite _ _, .inf b => .inf b
  | .finite a n, .finite b k =>
    if a = b then F64.round a (n + k) 1
    else if k < n then F64.round a (n - k) 1
    else if n < k then F64.round b (k - n) 1
    else .finite false 0

/-- The `float64` product `x * y`. -/
def F64.mul : F64 → F64 → F64
  | .nan, _ => .nan
  | _, .nan => .nan
  | .inf a, .inf b => .inf (xor a b)
  | .inf a, .finite b k => if k = 0 then .nan else .inf (xor a b)
  | .finite a n, .inf b => if n = 0 then .nan else .inf (xor a b)
  | .finite a n, .finite b k => F64.round (xor a b) (n * k) (1 <<< 1074)

/-- The sum of an infinite product of sign `s` and `z`. -/
def F64.addInf (s : Bool) : F64 → F64
  | .nan => .nan
  | .inf c => if c = s then .inf s else .nan
  | .finite _ _ => .inf s

/-- The fused multiply-add `x * y + z`: the exact product and sum, rounded once. -/
def F64.fma : F64 → F64 → F64 → F64
  | .nan, _, _ => .nan
  | _, .nan, _ => .nan
  | _, _, .nan => .nan
  | .inf a, .inf b, z => F64.addInf (xor a b) z
  | .inf a, .finite b k, z => if k = 0 then .nan else F64.addInf (xor a b) z
  | .finite a n, .inf b, z => if n = 0 then .nan else F64.addInf (xor a b) z
  | .finite _ _, .finite _ _, .inf c => .inf c
  | .finite a n, .finite b k, .finite c t =>
    if xor a b = c then F64.round c (n * k + t <<< 1074) (1 <<< 1074)
    else if t <<< 1074 < n * k then F64.round (xor a b) (n * k - t <<< 1074) (1 <<< 1074)
    else if n * k < t <<< 1074 then F64.round c (t <<< 1074 - n * k) (1 <<< 1074)
    else .finite false 0

/-- The exact value of a finite `float64`, in units, with its sign. -/
def Finite64.signedUnits (x : Finite64) : Int :=
  if x.neg then -(x.units : Int) else (x.units : Int)

/-- The exact value of a `float64`, in units, with its sign; `none` for an
infinity or NaN. -/
def F64.signedUnits? : F64 → Option Int
  | .finite neg n => some (if neg then -(n : Int) else (n : Int))
  | _ => none

/-! ## Shared data: `workflows.go` -/

/-- The Go struct `OrderItem`. -/
structure OrderItem where
  ItemID : Int
  Name : String
  Quantity : Int
  Price : Finite64
deriving DecidableEq

/-- The Go struct `Order`; `OrderTime` is kept as a bare clock reading
(`0` is the zero time). -/
structure Order where
  ID : Int
  TableNumber : Int
  Items : List OrderItem
  Status : String
  OrderTime : Nat
deriving DecidableEq

/-! ## Notification hub: `notification-service/main.go` -/

def EventNewOrder : String := "new_order"

def EventStatusChange : String := "status_change"

/-- The Go struct `Notification`.  `Items` is the list of item maps built by
the consumer from the four item fields. -/
structure Notification where
  ID : String
  /-- The Go field `Type` (a reserved word here). -/
  Typ : String
  TableNumber : Int
  Status : String
  Items : List OrderItem
  AssignedTo : String
  Timestamp : String
  Message : String
deriving DecidableEq

/-- A live websocket connection, identified by its pointer. -/
abbrev Conn := Nat

/-- The two global maps of the hub.  `recentNotifications` holds the keys of
the Go map (the only value ever stored is `true`); `clients` maps a connection
to its room. -/
structure Hub where
  recentNotifications : List String
  clients : List (Conn × String)
deriving DecidableEq

/-- What the hub cannot decide by itself during one `SendNotification`. -/
structure HubEnv where
  /-- The reading `time.Now().Format("20060102150405.000000000")`. -/
  now : String
  /-- The order in which `range recentNotifications` visits a map with the given keys. -/
  rangeOrder : List String → List String
  /-- Whether `conn.WriteMessage` returns an error on this connection. -/
  writeFails : Conn → Bool

/-- The body of `recentNotifications[id] = true`. -/
def mapSet (m : List String) (id : String) : List String :=
  if id ∈ m then m else m ++ [id]

/-- The compaction loop of `trackNotification`: copy entries in `range` order,
count them, and break as soon as the count reaches 50. -/
def compactLoop : List String → List String → Nat → List String
  | [], newMap, _ => newMap
  | k :: rest, newMap, count =>
    let newMap := mapSet newMap k
    let count := count + 1
    if count ≥ 50 then newMap else compactLoop rest newMap count

/-- The function `trackNotification`, without the expiry goroutine (see `expire`). -/
def trackNotification (rangeOrder : List String → List String)
    (recentNotifications : List String) (id : String) : List String :=
  let recentNotifications := mapSet recentNotifications id
  if recentNotifications.length > 100 then
    compactLoop (rangeOrder recentNotifications) [] 0
  else
    recentNotifications

/-- The goroutine started by `trackNotification`, when it fires after 30 seconds:
`delete(recentNotifications, notificationID)`. -/
def expire (recentNotifications : List String) (id : String) : List String :=
  recentNotifications.filter (fun k => k != id)

/-- The function `isRecentNotification`. -/
def isRecentNotification (recentNotifications : List String) (id : String) : Bool :=
  decide (id ∈ recentNotifications)

/-- The condition under which `SendNotification` writes to a client of `room`. -/
def roomMatches (room : String) (typ : String) : Bool :=
  room == "orders" ||
  (room == "kitchen" && (typ == EventNewOrder || typ == EventStatusChange)) ||
  (room == "dashboard" && typ == EventNewOrder)

/-- The fan-out loop of `SendNotification`: the connections `WriteMessage` was
called on, and `failedConnections`, both in visiting order. -/
def fanOut (writeFails : Conn → Bool) (typ : String) :
    List (Conn × String) → List Conn × List Conn
  | [] => ([], [])
  | (conn, room) :: rest =>
    let (written, failedConnections) := fanOut writeFails typ rest
    if roomMatches room typ then
      if writeFails conn then (conn :: written, conn :: failedConnections)
      else (conn :: written, failedConnections)
    else (written, failedConnections)

/-- The clean-up loop of `SendNotification`: `delete(clients, conn)` for every
failed connection. -/
def removeFailed (clients : List (Conn × String)) (failedConnections : List Conn) :
    List (Conn × String) :=
  failedConnections.foldl (fun cs conn => cs.filter (fun p => p.1 != conn)) clients

/-- The observable outcome of one `SendNotification`. -/
structure SendResult where
  /-- The returned error (`none` is `nil`). -/
  err : Option String
  /-- The hub after the call. -/
  hub : Hub
  /-- The calls `conn.WriteMessage(TextMessage, notificationJSON)`, in order. -/
  writes : List (Conn × Notification)
deriving DecidableEq

/-- The first statement of `SendNotification`: a notification without an ID
gets the clock reading as its ID. -/
def stampID (now : String) (notification : Notification) : Notification :=
  if notification.ID == "" then { notification with ID := now } else notification

/-- The function `SendNotification`.  `json.Marshal` cannot fail on a value of
the embedded `Notification` type, so its error branch is absent. -/
def SendNotification (env : HubEnv) (hub : Hub) (notification : Notification) : SendResult :=
  let notification := stampID env.now notification
  if isRecentNotification hub.recentNotifications notification.ID then
    { err := none, hub := hub, writes := [] }
  else
    let recent := trackNotification env.rangeOrder hub.recentNotifications notification.ID
    let (written, failedConnections) := fanOut env.writeFails notification.Typ hub.clients
    { err := none
      hub := { recentNotifications := recent
               clients := removeFailed hub.clients failedConnections }
      writes := written.map (fun conn => (conn, notification)) }

/-! ## Order store: `order-service/temporal/activities.go` -/

/-- Modelled from the spec: the schema `orders(id, table_number, items JSON,
status, total_amount, order_time)` is not part of the sources.  `items` holds
the decoded JSON array; `total_amount` holds the `float64` passed to the insert
(the type of the column is not part of the sources); `assigned_to` is the
nullable column read by `GetOrder`; `order_time` is omitted, no embedded
operation reads or writes it. -/
structure OrderRow where
  id : Int
  table_number : Int
  items : List OrderItem
  status : String
  total_amount : F64
  assigned_to : Option String
deriving DecidableEq

/-- Modelled from the spec: the schema `tables(number UNIQUE, status, capacity)`.
A capacity of `none` is the value the column takes when an insert does not set it. -/
structure TableRow where
  number : Int
  status : String
  capacity : Option Int
deriving DecidableEq

/-- Modelled from the spec: the schema `notifications(order_id,
notification_type, message)`, the audit trail. -/
structure NotificationRow where
  order_id : Int
  notification_type : String
  message : String
deriving DecidableEq

/-- The contents of the database. -/
structure DB where
  orders : List OrderRow
  tables : List TableRow
  notifications : List NotificationRow
deriving DecidableEq

/-- The statements and calls that can return an error for reasons outside the
program (connection lost, constraint of a column that is not modelled, ...). -/
inductive Step where
  | beginTx
  | selectTableExists
  | insertTable
  | updateTableOccupied
  | insertOrder
  | insertNotification
  | commit
  | updateOrderStatus
  | rowsAffected
  | updateTableAvailable
  | selectOrder
  | deleteNotifications
  | deleteOrder
  | dial
  | channel
  | queueDeclare
  | publish
deriving DecidableEq

/-- The errors an activity returns. -/
inductive Err where
  /-- The driver or the broker returned an error at this step. -/
  | io (s : Step)
  /-- The primary key of `orders` rejected the identifier. -/
  | duplicateKey (id : Int)
  /-- The error `fmt.Errorf("order with ID %d not found", orderID)`. -/
  | notFound (orderID : Int)
  /-- The error `sql.ErrNoRows` of `QueryRow(...).Scan`. -/
  | noRows
  /-- The foreign key of `notifications` rejected the deletion of an order row
  that a notification row still refers to. -/
  | foreignKey (orderID : Int)
deriving DecidableEq

/-- What an activity cannot decide by itself during one attempt. -/
structure Env where
  /-- Whether the step returns an error. -/
  fails : Step → Bool
  /-- The identifier the database assigns in `INSERT INTO orders ... RETURNING id`
  (the column default is not part of the sources). -/
  newID : Int
  /-- The reading `time.Now().Format(time.RFC3339)`. -/
  now : String
  /-- Whether the compiled program fuses the multiply-add of the total. -/
  fused : Bool := false

/-- The statement `SELECT EXISTS(SELECT 1 FROM tables WHERE number = $1)`. -/
def tableExists (tx : DB) (number : Int) : Bool :=
  tx.tables.any (fun t => t.number == number)

/-- The statement `INSERT INTO tables (number, status) VALUES ($1, 'Occupied')`. -/
def insertTableOccupied (tx : DB) (number : Int) : DB :=
  let row : TableRow := { number := number, status := "Occupied", capacity := none }
  { tx with tables := tx.tables ++ [row] }

/-- The statement `UPDATE tables SET status = 'Occupied' WHERE number = $1`. -/
def updateTableOccupied (tx : DB) (number : Int) : DB :=
  let tables := tx.tables.map
    (fun t => if t.number == number then { t with status := "Occupied" } else t)
  { tx with tables := tables }

/-- The `if !exists ... else ...` block of `StoreOrder`. -/
def occupyTable (env : Env) (tx : DB) (number : Int) : Except Err DB :=
  if !tableExists tx number then
    if env.fails .insertTable then .error (.io .insertTable)
    else .ok (insertTableOccupied tx number)
  else
    if env.fails .updateTableOccupied then .error (.io .updateTableOccupied)
    else .ok (updateTableOccupied tx number)

/-- The statement `totalAmount += item.Price * float64(item.Quantity)`.  The
product and the sum are each rounded, unless the compiler fuses them into one
multiply-add with a single rounding, which the language allows ("an
implementation may combine multiple floating-point operations into a single
fused operation, possibly across statements"). -/
def accumulate (fused : Bool) (totalAmount : F64) (item : OrderItem) : F64 :=
  if fused then F64.fma item.Price.toF64 (F64.ofInt item.Quantity) totalAmount
  else F64.add totalAmount (F64.mul item.Price.toF64 (F64.ofInt item.Quantity))

/-- The loop over `order.Items` that computes `totalAmount`, from the zero value. -/
def totalAmount (fused : Bool) (items : List OrderItem) : F64 :=
  items.foldl (accumulate fused) 0

/-- The sum over the items of quantity times price in exact arithmetic, in
units of `2^-1074`. -/
def exactTotal (items : List OrderItem) : Int :=
  (items.map (fun item => item.Quantity * item.Price.signedUnits)).sum

/-- A condition under which the loop rounds nothing: the prices are
non-negative multiples of `2^j` units, the quantities lie in `[0, 2^53)`, and
the exact total is below `2^(53+j)` units. -/
def ExactlySummable (j : Nat) (items : List OrderItem) : Prop :=
  j ≤ 2045 ∧
  (∀ item ∈ items, item.Price.neg = false ∧ 1 <<< j ∣ item.Price.units ∧
    0 ≤ item.Quantity ∧ item.Quantity < 2 ^ 53) ∧
  exactTotal items < ((1 <<< (53 + j) : Nat) : Int)

/-- The body of `StoreOrder` between `BeginTx` and the return of `Commit`,
acting on the transaction's view of the database.  `json.Marshal(order.Items)`
cannot fail on an embedded item list.  Modelled from the spec: `orders.id` is
the key the `notifications` rows refer to, so the insert is rejected when an
order row already has the identifier. -/
def StoreOrderTx (env : Env) (tx : DB) (order : Order) : Except Err DB :=
  if env.fails .selectTableExists then .error (.io .selectTableExists) else
  match occupyTable env tx order.TableNumber with
  | .error e => .error e
  | .ok tx =>
    let total := totalAmount env.fused order.Items
    if env.fails .insertOrder then .error (.io .insertOrder) else
    let orderID := env.newID
    if tx.orders.any (fun o => o.id == orderID) then .error (.duplicateKey orderID) else
    let row : OrderRow :=
      { id := orderID, table_number := order.TableNumber, items := order.Items,
        status := "Pending", total_amount := total, assigned_to := none }
    let tx := { tx with orders := tx.orders ++ [row] }
    if env.fails .insertNotification then .error (.io .insertNotification) else
    let message := "New order received for table " ++ toString order.TableNumber
    let audit : NotificationRow :=
      { order_id := orderID, notification_type := "new_order", message := message }
    let tx := { tx with notifications := tx.notifications ++ [audit] }
    if env.fails .commit then .error (.io .commit) else .ok tx

/-- The function `StoreOrder`: the database after the call and the returned
error.  Every error path runs the deferred `tx.Rollback()`, which restores the
database of before the call. -/
def StoreOrder (env : Env) (db : DB) (order : Order) : DB × Option Err :=
  if env.fails .beginTx then (db, some (.io .beginTx)) else
  match StoreOrderTx env db order with
  | .ok tx => (tx, none)
  | .error e => (db, some e)

/-- The statement `UPDATE orders SET status = $1 WHERE id = $2`. -/
def setOrderStatus (tx : DB) (orderID : Int) (status : String) : DB :=
  let orders := tx.orders.map
    (fun o => if o.id == orderID then { o with status := status } else o)
  { tx with orders := orders }

/-- The result `RowsAffected()` of that statement. -/
def rowsAffected (tx : DB) (orderID : Int) : Nat :=
  (tx.orders.filter (fun o => o.id == orderID)).length

/-- The statement `UPDATE tables t SET status = 'Available' FROM orders o
WHERE o.id = $1 AND t.number = o.table_number`. -/
def releaseTable (tx : DB) (orderID : Int) : DB :=
  let tables := tx.tables.map
    (fun t => if tx.orders.any (fun o => o.id == orderID && t.number == o.table_number)
              then { t with status := "Available" } else t)
  { tx with tables := tables }

/-- The `if status == "Completed"` block of `UpdateOrderStatus`. -/
def releaseIfCompleted (env : Env) (tx : DB) (orderID : Int) (status : String) :
    Except Err DB :=
  if status == "Completed" then
    if env.fails .updateTableAvailable then .error (.io .updateTableAvailable)
    else .ok (releaseTable tx orderID)
  else .ok tx

/-- The body of `UpdateOrderStatus` between `BeginTx` and the return of `Commit`. -/
def UpdateOrderStatusTx (env : Env) (tx : DB) (orderID : Int) (status : String)
    (_chefName : String) : Except Err DB :=
  if env.fails .updateOrderStatus then .error (.io .updateOrderStatus) else
  let affected := rowsAffected tx orderID
  let tx := setOrderStatus tx orderID status
  if env.fails .rowsAffected then .error (.io .rowsAffected) else
  if affected == 0 then .error (.notFound orderID) else
  match releaseIfCompleted env tx orderID status with
  | .error e => .error e
  | .ok tx =>
    if env.fails .insertNotification then .error (.io .insertNotification) else
    let message := "Order #" ++ toString orderID ++ " status changed to " ++ status
    let audit : NotificationRow :=
      { order_id := orderID, notification_type := "status_change", message := message }
    let tx := { tx with notifications := tx.notifications ++ [audit] }
    if env.fails .commit then .error (.io .commit) else .ok tx

/-- The function `UpdateOrderStatus`. -/
def UpdateOrderStatus (env : Env) (db : DB) (orderID : Int) (status : String)
    (chefName : String) : DB × Option Err :=
  if env.fails .beginTx then (db, some (.io .beginTx)) else
  match UpdateOrderStatusTx env db orderID status chefName with
  | .ok tx => (tx, none)
  | .error e => (db, some e)

/-- The function `GetOrder`.  The decoding of the `items` column cannot fail on
a stored item list. -/
def GetOrder (env : Env) (db : DB) (orderID : Int) : Except Err Order :=
  if env.fails .selectOrder then .error (.io .selectOrder) else
  match db.orders.find? (fun o => o.id == orderID) with
  | none => .error .noRows
  | some row =>
    .ok { ID := orderID, TableNumber := row.table_number, Items := row.items,
          Status := row.status, OrderTime := 0 }

/-- The body of `DeleteOrder` between `BeginTx` and the return of `Commit`.
Modelled from the spec: the foreign key from `notifications` to `orders`, which
rejects the deletion of an order row that a notification row of the
transaction still refers to. -/
def DeleteOrderTx (env : Env) (tx : DB) (orderID : Int) : Except Err DB :=
  if env.fails .deleteNotifications then .error (.io .deleteNotifications) else
  let tx := { tx with notifications := tx.notifications.filter (fun n => n.order_id != orderID) }
  if env.fails .deleteOrder then .error (.io .deleteOrder) else
  if tx.orders.any (fun o => o.id == orderID) &&
      tx.notifications.any (fun n => n.order_id == orderID) then
    .error (.foreignKey orderID) else
  let tx := { tx with orders := tx.orders.filter (fun o => o.id != orderID) }
  if env.fails .commit then .error (.io .commit) else .ok tx

/-- The function `DeleteOrder`. -/
def DeleteOrder (env : Env) (db : DB) (orderID : Int) : DB × Option Err :=
  if env.fails .beginTx then (db, some (.io .beginTx)) else
  match DeleteOrderTx env db orderID with
  | .ok tx => (tx, none)
  | .error e => (db, some e)

/-- The status of the table row with this number, as `getTableFromDB` reads it. -/
def tableStatus (db : DB) (number : Int) : Option String :=
  (db.tables.find? (fun t => t.number == number)).map (fun t => t.status)

/-- An environment in which no step fails. -/
def Env.ok (newID : Int) (now : String) : Env :=
  { fails := fun _ => false, newID := newID, now := now }

/-! ## Event bus: `PublishOrderEvent` and the consumers of `connectRabbitMQ` -/

/-- The JSON values that occur in the payloads. -/
inductive JVal where
  | num (n : Int)
  | str (s : String)
  | items (l : List OrderItem)
deriving DecidableEq

/-- A message held by the broker: the queue it was routed to and its JSON
object, as a list of members. -/
structure Message where
  queue : String
  body : List (String × JVal)
deriving DecidableEq

/-- The messages published so far, oldest first. -/
abbrev Bus := List Message

/-- The JSON encoding of the local struct `OrderNotification`. -/
def orderNotificationJSON (order : Order) (timestamp : String) : List (String × JVal) :=
  [("id", .num order.ID), ("table_number", .num order.TableNumber),
   ("items", .items order.Items), ("status", .str order.Status),
   ("timestamp", .str timestamp)]

/-- The function `PublishOrderEvent`. -/
def PublishOrderEvent (env : Env) (bus : Bus) (order : Order) : Bus × Option Err :=
  if env.fails .dial then (bus, some (.io .dial)) else
  if env.fails .channel then (bus, some (.io .channel)) else
  if env.fails .queueDeclare then (bus, some (.io .queueDeclare)) else
  let qName := "order.created"
  let body := orderNotificationJSON order env.now
  if env.fails .publish then (bus, some (.io .publish)) else
  (bus ++ [{ queue := qName, body := body }], none)

/-- The case folding of one character of a member name, as far as it can
yield a character of the field tags, which are lower-case ASCII: an upper-case
ASCII letter folds to its lower case, the Kelvin sign to `k`, the long s to `s`. -/
def foldChar (c : Char) : Char :=
  if c = Char.ofNat 0x212A then 'k'
  else if c = Char.ofNat 0x17F then 's'
  else c.toLower

/-- The case folding of a member name. -/
def foldName (name : String) : String :=
  String.mk (name.data.map foldChar)

/-- The values of the members that `json.Unmarshal` decodes into the struct
field tagged `key`: the members whose name equals the tag up to case folding,
in the order of the object. -/
def membersFor (body : List (String × JVal)) (key : String) : List JVal :=
  (body.filter (fun m => foldName m.1 == key)).map Prod.snd

/-- A JSON value as a Go `int`: an integer within the 64-bit range. -/
def int64? : JVal → Option Int
  | .num n => if -(2 : Int) ^ 63 ≤ n ∧ n < (2 : Int) ^ 63 then some n else none
  | _ => none

/-- A JSON value as a Go `string`. -/
def string? : JVal → Option String
  | .str s => some s
  | _ => none

/-- A JSON value as the item list. -/
def items? : JVal → Option (List OrderItem)
  | .items l => some l
  | _ => none

/-- Decoding of one struct field: every member of the field is decoded in
turn, the last one stays, no member leaves the zero value; a member of another
type makes `json.Unmarshal` return an error (`none`). -/
def decodeField {α : Type} (decode : JVal → Option α) (zero : α) (members : List JVal) :
    Option α :=
  members.foldl
    (fun field v =>
      match field, decode v with
      | some _, some a => some a
      | _, _ => none)
    (some zero)

/-- Decoding of an `int` field. -/
def jsonInt (body : List (String × JVal)) (key : String) : Option Int :=
  decodeField int64? 0 (membersFor body key)

/-- Decoding of a `string` field. -/
def jsonStr (body : List (String × JVal)) (key : String) : Option String :=
  decodeField string? "" (membersFor body key)

/-- Decoding of the `items` field. -/
def jsonItems (body : List (String × JVal)) (key : String) : Option (List OrderItem) :=
  decodeField items? [] (membersFor body key)

/-- The notification the `order.created` consumer builds from a message body;
`none` when `json.Unmarshal` fails (the message is skipped).  `nowMs` is the
reading `time.Now().Format("20060102150405.000")` at the time of delivery. -/
def orderCreatedNotification (nowMs : String) (body : List (String × JVal)) :
    Option Notification :=
  match jsonInt body "id", jsonInt body "table_number", jsonItems body "items",
        jsonStr body "status", jsonStr body "assigned_to", jsonStr body "timestamp" with
  | some id, some tableNumber, some items, some status, some assignedTo, some timestamp =>
    let uniqueID := "new_order_" ++ toString id ++ "_" ++ nowMs
    some { ID := uniqueID, Typ := EventNewOrder, TableNumber := tableNumber,
           Status := status, Items := items, AssignedTo := assignedTo,
           Timestamp := timestamp, Message := "New order received" }
  | _, _, _, _, _, _ => none

/-- The notification the `order.status` consumer builds from a message body.
`nowRFC3339` is the reading `time.Now().Format(time.RFC3339)`. -/
def statusChangeNotification (nowMs nowRFC3339 : String) (body : List (String × JVal)) :
    Option Notification :=
  match jsonInt body "order_id", jsonInt body "table_number", jsonStr body "status",
        jsonStr body "assigned_to" with
  | some orderID, some tableNumber, some status, some assignedTo =>
    let uniqueID := "status_change_" ++ toString orderID ++ "_" ++ status ++ "_" ++ nowMs
    some { ID := uniqueID, Typ := EventStatusChange, TableNumber := tableNumber,
           Status := status, Items := [], AssignedTo := assignedTo,
           Timestamp := nowRFC3339, Message := "Order status changed to " ++ status }
  | _, _, _, _ => none

/-- One iteration of the loop over `msgs` (queue `order.created`). -/
def onOrderCreated (nowMs : String) (env : HubEnv) (hub : Hub)
    (body : List (String × JVal)) : SendResult :=
  match orderCreatedNotification nowMs body with
  | none => { err := none, hub := hub, writes := [] }
  | some notification => SendNotification env hub notification

/-- One iteration of the loop over `statusMsgs` (queue `order.status`). -/
def onOrderStatus (nowMs nowRFC3339 : String) (env : HubEnv) (hub : Hub)
    (body : List (String × JVal)) : SendResult :=
  match statusChangeNotification nowMs nowRFC3339 body with
  | none => { err := none, hub := hub, writes := [] }
  | some notification => SendNotification env hub notification

/-! ## Workflows: `order-service/temporal/workflows.go` -/

/-- What the workflows act on: the database and the broker. -/
structure World where
  db : DB
  bus : Bus
deriving DecidableEq

/-- The constant `RetryPolicy{MaximumAttempts: 3}`. -/
def MaximumAttempts : Nat := 3

/-- The attempts of one activity: `attemptsLeft + 1` attempts remain, the next
one runs in the environment `envs attempt`; an attempt that returns an error
is followed by the next one, the last error is the result. -/
def retry {α : Type} (activity : Env → World → World × Except Err α) (envs : Nat → Env) :
    Nat → Nat → World → World × Except Err α
  | 0, attempt, w => activity (envs attempt) w
  | attemptsLeft + 1, attempt, w =>
    match activity (envs attempt) w with
    | (w1, .ok a) => (w1, .ok a)
    | (w1, .error _) => retry activity envs attemptsLeft (attempt + 1) w1

/-- The call `workflow.ExecuteActivity(ctx, activity, ...).Get(ctx, ...)` under
the retry policy of the workflows. -/
def executeActivity {α : Type} (activity : Env → World → World × Except Err α)
    (envs : Nat → Env) (w : World) : World × Except Err α :=
  retry activity envs (MaximumAttempts - 1) 0 w

/-- The activity `StoreOrder` on the world. -/
def storeOrderActivity (order : Order) (env : Env) (w : World) : World × Except Err Unit :=
  match StoreOrder env w.db order with
  | (db, none) => ({ w with db := db }, .ok ())
  | (db, some e) => ({ w with db := db }, .error e)

/-- The activity `PublishOrderEvent` on the world. -/
def publishOrderEventActivity (order : Order) (env : Env) (w : World) :
    World × Except Err Unit :=
  match PublishOrderEvent env w.bus order with
  | (bus, none) => ({ w with bus := bus }, .ok ())
  | (bus, some e) => ({ w with bus := bus }, .error e)

/-- The activity `UpdateOrderStatus` on the world. -/
def updateOrderStatusActivity (orderID : Int) (status chefName : String) (env : Env)
    (w : World) : World × Except Err Unit :=
  match UpdateOrderStatus env w.db orderID status chefName with
  | (db, none) => ({ w with db := db }, .ok ())
  | (db, some e) => ({ w with db := db }, .error e)

/-- The activity `GetOrder` on the world. -/
def getOrderActivity (orderID : Int) (env : Env) (w : World) : World × Except Err Order :=
  (w, GetOrder env w.db orderID)

/-- The function `OrderWorkflow`.  `envs k` gives the environments of the
attempts of the k-th activity. -/
def OrderWorkflow (envs : Nat → Nat → Env) (w : World) (order : Order) :
    World × Option Err :=
  match executeActivity (storeOrderActivity order) (envs 0) w with
  | (w, .error err) => (w, some err)
  | (w, .ok _) =>
    match executeActivity (publishOrderEventActivity order) (envs 1) w with
    | (w, .error err) => (w, some err)
    | (w, .ok _) => (w, none)

/-- The function `UpdateOrderStatusWorkflow`. -/
def UpdateOrderStatusWorkflow (envs : Nat → Nat → Env) (w : World) (orderID : Int)
    (status : String) : World × Option Err :=
  match executeActivity (updateOrderStatusActivity orderID status "") (envs 0) w with
  | (w, .error err) => (w, some err)
  | (w, .ok _) =>
    match executeActivity (getOrderActivity orderID) (envs 1) w with
    | (w, .error err) => (w, some err)
    | (w, .ok order) =>
      match executeActivity (publishOrderEventActivity order) (envs 2) w with
      | (w, .error err) => (w, some err)
      | (w, .ok _) => (w, none)

/-! ## Registration of subscribers: `handleWebSocket` -/

/-- The statement `clients[conn] = room`. -/
def registerClient (clients : List (Conn × String)) (conn : Conn) (room : String) :
    List (Conn × String) :=
  if clients.any (fun p => p.1 == conn) then
    clients.map (fun p => if p.1 == conn then (conn, room) else p)
  else clients ++ [(conn, room)]

/-- The deferred `delete(clients, conn)` that runs when the read loop ends. -/
def unregisterClient (clients : List (Conn × String)) (conn : Conn) : List (Conn × String) :=
  clients.filter (fun p => p.1 != conn)

/-- How `handleWebSocket` answers a request. -/
inductive WSOutcome where
  /-- The status written for an `OPTIONS` request: `w.WriteHeader(http.StatusOK)`. -/
  | preflight (status : Nat)
  /-- The reply `http.Error(w, msg, status)`, written without calling `Upgrade`. -/
  | rejected (status : Nat) (msg : String)
  /-- The call `upgrader.Upgrade` returned an error. -/
  | upgradeFailed
  /-- The connection was upgraded and registered under this room. -/
  | connected (conn : Conn) (room : String)
deriving DecidableEq

/-- The function `handleWebSocket` up to the point where it enters the read
loop: the answer and the registry.  `upgrade` is what `upgrader.Upgrade` would
return for this request (`none` for an error). -/
def handleWebSocket (method : String) (roomQuery : String) (upgrade : Option Conn)
    (clients : List (Conn × String)) : WSOutcome × List (Conn × String) :=
  if method == "OPTIONS" then (.preflight 200, clients) else
  let room := if roomQuery == "" then "orders" else roomQuery
  if room != "kitchen" && room != "dashboard" && room != "orders" then
    (.rejected 400 "Invalid room", clients)
  else
    match upgrade with
    | none => (.upgradeFailed, clients)
    | some conn => (.connected conn room, registerClient clients conn room)

/-! ## HTTP handlers: `order-service/main.go` -/

/-- What a handler puts in the `error` member of its answer. -/
inductive HandlerErr where
  /-- The error of `strconv.Atoi` on the path parameter: "Invalid order ID". -/
  | invalidOrderID
  /-- The error of `c.ShouldBindJSON`. -/
  | bind
  /-- The error of `temporalClient.ExecuteWorkflow`: the workflow could not be started. -/
  | start
  /-- The error of `we.Get`: the error the workflow returned. -/
  | workflow (e : Err)
  /-- The error of the `GetOrder` call of the handler. -/
  | read (e : Err)
deriving DecidableEq

/-- The answers of `createOrder` and `updateOrder`. -/
inductive Response where
  /-- Status 400 with an `error` member. -/
  | badRequest (e : HandlerErr)
  /-- Status 500 with an `error` member. -/
  | internalServerError (e : HandlerErr)
  /-- Status 201 with the members `workflow_id`, `order_id` and `status`. -/
  | created (workflowID : String) (orderID : Int) (status : String)
  /-- Status 200 with the order. -/
  | ok (order : Order)
deriving DecidableEq

/-- The function `createOrder`.  `body` is the order bound from the request
(`none` when `ShouldBindJSON` fails), `startFails` tells whether
`ExecuteWorkflow` returns an error; `ExecuteWorkflow` returns as soon as the
workflow is started, and the handler does not call `we.Get`.  The world returned
is the one the started workflow leaves behind. -/
def createOrder (body : Option Order) (startFails : Bool) (workflowID : String)
    (envs : Nat → Nat → Env) (w : World) : World × Response :=
  match body with
  | none => (w, .badRequest .bind)
  | some order =>
    if startFails then (w, .internalServerError .start) else
    ((OrderWorkflow envs w order).1, .created workflowID order.ID "Pending")

/-- The function `updateOrder`.  `id` is the path parameter (`none` when
`strconv.Atoi` fails), `body` the `status` member bound from the request,
`envRead` the environment of the final `GetOrder`. -/
def updateOrder (id : Option Int) (body : Option String) (startFails : Bool)
    (envs : Nat → Nat → Env) (envRead : Env) (w : World) : World × Response :=
  match id with
  | none => (w, .badRequest .invalidOrderID)
  | some id =>
    match body with
    | none => (w, .badRequest .bind)
    | some status =>
      if startFails then (w, .internalServerError .start) else
      match UpdateOrderStatusWorkflow envs w id status with
      | (w, some err) => (w, .internalServerError (.workflow err))
      | (w, none) =>
        match GetOrder envRead w.db id with
        | .error err => (w, .internalServerError (.read err))
        | .ok order => (w, .ok order)

/-! ## Sequences of store calls -/

/-- One call of a store operation, with the environment it runs in. -/
inductive StoreOp where
  | store (env : Env) (order : Order)
  | update (env : Env) (orderID : Int) (status chefName : String)
  | delete (env : Env) (orderID : Int)

/-- The database after the call. -/
def step (db : DB) : StoreOp → DB
  | .store env order => (StoreOrder env db order).1
  | .update env orderID status chefName => (UpdateOrderStatus env db orderID status chefName).1
  | .delete env orderID => (DeleteOrder env db orderID).1

/-- The database after a sequence of calls. -/
def run (db : DB) (ops : List StoreOp) : DB :=
  ops.foldl step db

/-- The invariant of the data model: every table that has a `Pending` order
against it is `Occupied`. -/
def OccupiedWhilePending (db : DB) : Prop :=
  ∀ o ∈ db.orders, o.status = "Pending" → tableStatus db o.table_number = some "Occupied"

/-- The foreign key of the schema: every notification row refers to an order row. -/
def RefIntegrity (db : DB) : Prop :=
  ∀ n ∈ db.notifications, ∃ o ∈ db.orders, o.id = n.order_id

/-- The calls under which the table status follows the orders: an update to
`Completed` finds no other `Pending` order on a table of the completed order,
and an update to `Pending` finds the table of the order `Occupied`. -/
def Guarded (db : DB) : StoreOp → Prop
  | .store _ _ => True
  | .delete _ _ => True
  | .update _ orderID status _ =>
    (status = "Completed" →
      ∀ o ∈ db.orders, o.status = "Pending" → o.id ≠ orderID →
        ∀ c ∈ db.orders, c.id = orderID → c.table_number ≠ o.table_number) ∧
    (status = "Pending" →
      ∀ o ∈ db.orders, o.id = orderID → tableStatus db o.table_number = some "Occupied")

/-- Every call of the sequence is guarded in the state it is applied to. -/
def GuardedRun : DB → List StoreOp → Prop
  | _, [] => True
  | db, op :: ops => Guarded db op ∧ GuardedRun (step db op) ops

/-! ## Concrete data used by the evaluations below -/

/-- A hub environment: no ID is generated from the clock, `range` visits the
cache in insertion order, every write succeeds. -/
def quietHubEnv : HubEnv :=
  { now := "20250101120000.000000000", rangeOrder := fun m => m, writeFails := fun _ => false }

/-- A registry with one subscriber in each room. -/
def threeRooms : List (Conn × String) := [(1, "orders"), (2, "kitchen"), (3, "dashboard")]

/-- A status-change notification for table 7. -/
def statusNote : Notification :=
  { ID := "status_change_1_Completed_20250101120000.000", Typ := EventStatusChange,
    TableNumber := 7, Status := "Completed", Items := [], AssignedTo := "",
    Timestamp := "2025-01-01T12:00:00Z", Message := "Order status changed to Completed" }

/-- A dedup cache holding 100 identities. -/
def fullCache : List String := (List.range 100).map (fun i => "seen_" ++ toString i)

/-- The database with no rows. -/
def emptyDB : DB := { orders := [], tables := [], notifications := [] }

/-- The order of the scenario: table 7, two soups at 5.00 and one bread at 2.50;
the input carries a status of its own. -/
def soupAndBread : Order :=
  { ID := 0, TableNumber := 7,
    Items := [{ ItemID := 1, Name := "Soup", Quantity := 2, Price := .ofDecimal 500 100 },
              { ItemID := 2, Name := "Bread", Quantity := 1, Price := .ofDecimal 250 100 }],
    Status := "Served", OrderTime := 0 }

/-- A valid order whose prices are the JSON numbers 0.1 and 0.2. -/
def tenthAndFifth : Order :=
  { ID := 0, TableNumber := 7,
    Items := [{ ItemID := 3, Name := "Tea", Quantity := 1, Price := .ofDecimal 1 10 },
              { ItemID := 4, Name := "Milk", Quantity := 1, Price := .ofDecimal 2 10 }],
    Status := "", OrderTime := 0 }

/-- A valid order of `2^53 + 1` pieces at the price 1. -/
def manyPieces : Order :=
  { ID := 0, TableNumber := 7,
    Items := [{ ItemID := 5, Name := "Grain", Quantity := 2 ^ 53 + 1, Price := .ofDecimal 1 1 }],
    Status := "", OrderTime := 0 }

/-- An environment in which no step fails and the multiply-add of the total is fused. -/
def fusedEnv : Env :=
  { fails := fun _ => false, newID := 1, now := "", fused := true }

/-- A database with one `Pending` order on table 7 and two occupied tables. -/
def twoTablesDB : DB :=
  { orders := [{ id := 1, table_number := 7, items := [], status := "Pending",
                 total_amount := 0, assigned_to := none }],
    tables := [{ number := 7, status := "Occupied", capacity := some 4 },
               { number := 8, status := "Occupied", capacity := some 2 }],
    notifications := [] }

/-- An order for table 7 without items. -/
def orderForTable7 : Order :=
  { ID := 0, TableNumber := 7, Items := [], Status := "", OrderTime := 0 }

/-- Two orders are stored for table 7, then the first one is completed. -/
def completeOneOfTwo : List StoreOp :=
  [.store (Env.ok 1 "") orderForTable7, .store (Env.ok 2 "") orderForTable7,
   .update (Env.ok 0 "") 1 "Completed" ""]

/-- An order is stored for table 7, completed, and put back to `Pending`. -/
def reopenCompleted : List StoreOp :=
  [.store (Env.ok 1 "") orderForTable7, .update (Env.ok 0 "") 1 "Completed" "",
   .update (Env.ok 0 "") 1 "Pending" ""]

/-- A table is used by one order, released, and used by the next one. -/
def oneAfterTheOther : List StoreOp :=
  [.store (Env.ok 1 "") orderForTable7, .update (Env.ok 0 "") 1 "Completed" "",
   .store (Env.ok 2 "") orderForTable7]

/-- Environments in which no attempt of any activity fails and the database
assigns the identifier 1. -/
def calmEnvs : Nat → Nat → Env :=
  fun _ _ => Env.ok 1 "2025-01-01T12:00:00Z"

/-- A hub with an empty dedup cache and one subscriber in room `orders`. -/
def oneSubscriber : Hub := { recentNotifications := [], clients := [(1, "orders")] }

/-- The body of an `order.created` message for order 5 on table 7. -/
def createdBody : List (String × JVal) :=
  orderNotificationJSON { ID := 5, TableNumber := 7, Items := [], Status := "Pending",
                          OrderTime := 0 } "2025-01-01T12:00:00Z"

/-- The body of an `order.status` message, as its consumer decodes it. -/
def statusBody : List (String × JVal) :=
  [("order_id", .num 5), ("table_number", .num 7), ("status", .str "Completed")]

/-- A hub environment in which the write to connection 2 fails. -/
def secondFailsEnv : HubEnv :=
  { now := "20250101120000.000000000", rangeOrder := fun m => m,
    writeFails := fun conn => conn == 2 }

/-- A registry in which the `kitchen` subscriber is visited first. -/
def kitchenFirst : List (Conn × String) := [(2, "kitchen"), (1, "orders"), (3, "dashboard")]

/-- The example database with the audit row of its order. -/
def auditedDB : DB :=
  { twoTablesDB with
    notifications := [{ order_id := 1, notification_type := "new_order",
                        message := "New order received for table 7" }] }

/-- Environments in which the database cannot be reached: `BeginTx` fails in
every attempt. -/
def downEnvs : Nat → Nat → Env :=
  fun _ _ => { fails := fun s => decide (s = .beginTx), newID := 1, now := "" }

/-- Environments in which the broker cannot be reached: `amqp.Dial` fails in
every attempt, the database works. -/
def brokerDownEnvs : Nat → Nat → Env :=
  fun _ _ => { fails := fun s => decide (s = .dial), newID := 1, now := "" }

/-- Environments in which the first two attempts of the first activity fail at
`Commit` and everything else works. -/
def flakyEnvs : Nat → Nat → Env :=
  fun activity attempt =>
    if activity = 0 ∧ attempt < 2 then
      { fails := fun s => decide (s = .commit), newID := 1, now := "" }
    else Env.ok 1 "2025-01-01T12:00:00Z"

/-! # Properties -/

/-! ## Fan-out by room -/

theorem fanOut_written (writeFails : Conn → Bool) (typ : String)
    (clients : List (Conn × String)) :
    (fanOut writeFails typ clients).1 =
      (clients.filter (fun p => roomMatches p.2 typ)).map Prod.fst := by
  induction clients with
  | nil => rfl
  | cons p rest ih =>
    obtain ⟨conn, room⟩ := p
    simp only [fanOut, List.filter_cons]
    by_cases hroom : roomMatches room typ = true
    · by_cases hw : writeFails conn = true <;> simp [hroom, hw, ih]
    · simp [hroom, ih]

theorem room_unique {clients : List (Conn × String)} (hkeys : (clients.map Prod.fst).Nodup)
    {conn : Conn} {room room1 : String} (h : (conn, room) ∈ clients)
    (h1 : (conn, room1) ∈ clients) : room1 = room := by
  induction clients with
  | nil => simp at h
  | cons p rest ih =>
    rw [List.map_cons, List.nodup_cons] at hkeys
    have hfst : ∀ r, (conn, r) ∈ rest → conn ∈ rest.map Prod.fst :=
      fun r hr => List.mem_map.2 ⟨(conn, r), hr, rfl⟩
    rcases List.mem_cons.1 h with hp | hrest
    · rcases List.mem_cons.1 h1 with hp1 | hrest1
      · exact (Prod.mk.inj (hp1.trans hp.symm)).2
      · subst hp
        exact absurd (hfst _ hrest1) hkeys.1
    · rcases List.mem_cons.1 h1 with hp1 | hrest1
      · subst hp1
        exact absurd (hfst _ hrest) hkeys.1
      · exact ih hkeys.2 hrest hrest1

theorem mem_written_iff (writeFails : Conn → Bool) (typ : String)
    {clients : List (Conn × String)} (hkeys : (clients.map Prod.fst).Nodup)
    {conn : Conn} {room : String} (h : (conn, room) ∈ clients) :
    conn ∈ (fanOut writeFails typ clients).1 ↔ roomMatches room typ = true := by
  rw [fanOut_written]
  constructor
  · intro hmem
    obtain ⟨p, hp, hpc⟩ := List.mem_map.1 hmem
    obtain ⟨hpin, hpm⟩ := List.mem_filter.1 hp
    obtain ⟨c, r⟩ := p
    simp only at hpc hpm
    subst hpc
    rw [room_unique hkeys h hpin] at hpm
    exact hpm
  · intro hm
    exact List.mem_map.2 ⟨(conn, room), List.mem_filter.2 ⟨h, hm⟩, rfl⟩

theorem SendNotification_writes (env : HubEnv) (hub : Hub) (notification : Notification)
    (hnew : isRecentNotification hub.recentNotifications
      (stampID env.now notification).ID = false) :
    (SendNotification env hub notification).writes =
      (fanOut env.writeFails (stampID env.now notification).Typ hub.clients).1.map
        (fun conn => (conn, stampID env.now notification)) := by
  simp only [SendNotification, hnew]
  rfl

theorem stampID_Typ (now : String) (notification : Notification) :
    (stampID now notification).Typ = notification.Typ := by
  unfold stampID
  split <;> rfl

/-- C1: for a notification that is not a duplicate, `SendNotification` calls
`WriteMessage` on a registered connection exactly when its room is routed the
notification type: room `dashboard` only for `new_order`, room `kitchen` for
`new_order` and `status_change`, room `orders` for every type; what is written
is the notification itself. -/
theorem SendNotification_routing (env : HubEnv) (hub : Hub) (notification : Notification)
    (hkeys : (hub.clients.map Prod.fst).Nodup)
    (hnew : isRecentNotification hub.recentNotifications
      (stampID env.now notification).ID = false)
    (conn : Conn) (room : String) (hmem : (conn, room) ∈ hub.clients) :
    (room = "dashboard" →
      (conn ∈ (SendNotification env hub notification).writes.map Prod.fst ↔
        notification.Typ = "new_order")) ∧
    (room = "kitchen" →
      (conn ∈ (SendNotification env hub notification).writes.map Prod.fst ↔
        (notification.Typ = "new_order" ∨ notification.Typ = "status_change"))) ∧
    (room = "orders" →
      conn ∈ (SendNotification env hub notification).writes.map Prod.fst) ∧
    (∀ w ∈ (SendNotification env hub notification).writes,
      w.2 = stampID env.now notification) := by
  have hw : (SendNotification env hub notification).writes.map Prod.fst =
      (fanOut env.writeFails notification.Typ hub.clients).1 := by
    rw [SendNotification_writes env hub notification hnew, stampID_Typ, List.map_map]
    exact List.map_id _
  rw [hw, mem_written_iff env.writeFails notification.Typ hkeys hmem]
  refine ⟨?_, ?_, ?_, ?_⟩
  · rintro rfl
    simp [roomMatches, EventNewOrder]
  · rintro rfl
    simp [roomMatches, EventNewOrder, EventStatusChange]
  · rintro rfl
    simp [roomMatches]
  · intro w hwmem
    rw [SendNotification_writes env hub notification hnew] at hwmem
    obtain ⟨c, _, rfl⟩ := List.mem_map.1 hwmem
    rfl

/-- Witness of C1: with one subscriber per room, a `status_change` notification
is written to the `kitchen` subscriber and to the `orders` subscriber, and not
to the `dashboard` subscriber. -/
theorem SendNotification_routing_witness :
    (3 ∈ (SendNotification quietHubEnv ⟨[], threeRooms⟩ statusNote).writes.map Prod.fst ↔
      statusNote.Typ = "new_order") ∧
    (2 ∈ (SendNotification quietHubEnv ⟨[], threeRooms⟩ statusNote).writes.map Prod.fst ↔
      (statusNote.Typ = "new_order" ∨ statusNote.Typ = "status_change")) ∧
    1 ∈ (SendNotification quietHubEnv ⟨[], threeRooms⟩ statusNote).writes.map Prod.fst :=
  ⟨(SendNotification_routing quietHubEnv ⟨[], threeRooms⟩ statusNote (by decide) (by decide)
      3 "dashboard" (by decide)).1 rfl,
   (SendNotification_routing quietHubEnv ⟨[], threeRooms⟩ statusNote (by decide) (by decide)
      2 "kitchen" (by decide)).2.1 rfl,
   (SendNotification_routing quietHubEnv ⟨[], threeRooms⟩ statusNote (by decide) (by decide)
      1 "orders" (by decide)).2.2.1 rfl⟩

/-! ## Duplicate suppression -/

theorem mem_mapSet_self (m : List String) (id : String) : id ∈ mapSet m id := by
  unfold mapSet
  split
  · assumption
  · simp

theorem SendNotification_of_recent (env : HubEnv) (hub : Hub) (notification : Notification)
    (hrec : isRecentNotification hub.recentNotifications
      (stampID env.now notification).ID = true) :
    SendNotification env hub notification = { err := none, hub := hub, writes := [] } := by
  simp [SendNotification, hrec]

/-- When the insert does not push the cache over 100 entries, the second of two
consecutive calls with the same identity finds it in the cache: it writes
nothing, leaves the hub as it is and returns `nil`. -/
theorem SendNotification_twice_no_compaction (env env1 : HubEnv) (hub : Hub)
    (notification : Notification) (hid : notification.ID ≠ "")
    (hroom : (mapSet hub.recentNotifications notification.ID).length ≤ 100) :
    (SendNotification env1 (SendNotification env hub notification).hub notification).writes = [] ∧
    (SendNotification env1 (SendNotification env hub notification).hub notification).err = none ∧
    (SendNotification env1 (SendNotification env hub notification).hub notification).hub =
      (SendNotification env hub notification).hub := by
  have hstamp : ∀ now, stampID now notification = notification := by
    intro now
    simp [stampID, hid]
  have hin : isRecentNotification (SendNotification env hub notification).hub.recentNotifications
      notification.ID = true := by
    simp only [SendNotification, hstamp]
    by_cases hrec : isRecentNotification hub.recentNotifications notification.ID = true
    · simp [hrec]
    · have hlen : ¬ (mapSet hub.recentNotifications notification.ID).length > 100 := by omega
      simp only [hrec, trackNotification, hlen]
      simpa [isRecentNotification] using mem_mapSet_self hub.recentNotifications notification.ID
  have hsecond := SendNotification_of_recent env1 (SendNotification env hub notification).hub
    notification (by rw [hstamp]; exact hin)
  rw [hsecond]
  exact ⟨rfl, rfl, rfl⟩

set_option maxRecDepth 100000 in
/-- C2, evaluated on a cache that holds 100 identities when the first call
tracks a new one: the insert makes 101 entries, the compaction keeps the 50
entries `range` visits first, the new identity is not among them, and the
second call with the same identity writes to the subscriber again. -/
theorem SendNotification_twice_after_compaction :
    fullCache.length = 100 ∧
    (SendNotification quietHubEnv ⟨fullCache, [(1, "orders")]⟩ statusNote).writes =
      [(1, statusNote)] ∧
    isRecentNotification
      (SendNotification quietHubEnv ⟨fullCache, [(1, "orders")]⟩ statusNote).hub.recentNotifications
      statusNote.ID = false ∧
    (SendNotification quietHubEnv
      (SendNotification quietHubEnv ⟨fullCache, [(1, "orders")]⟩ statusNote).hub
      statusNote).writes = [(1, statusNote)] := by
  decide

/-! ## Order store -/

/-! ### Rounding of exactly representable values -/

theorem bitLengthAux_le (fuel x k : Nat) (h : x < 2 ^ k) : bitLengthAux fuel x ≤ k := by
  induction fuel generalizing x k with
  | zero => simp [bitLengthAux]
  | succ f ih =>
    simp only [bitLengthAux]
    split
    · omega
    · rename_i hx
      cases k with
      | zero =>
        simp only [pow_zero, Nat.lt_one_iff] at h
        exact absurd h hx
      | succ k =>
        have hhalf : x / 2 < 2 ^ k := by
          rw [Nat.div_lt_iff_lt_mul (by decide)]
          rw [pow_succ] at h
          exact h
        have := ih (x / 2) k hhalf
        omega

theorem one_shiftLeft_pos (e : Nat) : 0 < 1 <<< e := by
  rw [Nat.one_shiftLeft]
  exact Nat.pow_pos Nat.zero_lt_two

theorem shiftLeft_dvd (m e : Nat) : 1 <<< e ∣ m <<< e := by
  rw [Nat.one_shiftLeft, Nat.shiftLeft_eq]
  exact Dvd.intro_left m rfl

theorem shiftLeft_lt (m e b : Nat) (h : m < 2 ^ b) : m <<< e < 1 <<< (b + e) := by
  rw [Nat.one_shiftLeft, Nat.shiftLeft_eq, pow_add]
  exact Nat.mul_lt_mul_of_pos_right h (Nat.pow_pos Nat.zero_lt_two)

theorem not_shiftLeft_le (n a b : Nat) (h : n < 1 <<< a) (hab : a ≤ b) : ¬ 1 <<< b ≤ n := by
  rw [Nat.one_shiftLeft] at h ⊢
  exact Nat.not_le.2 (Nat.lt_of_lt_of_le h (Nat.pow_le_pow_right Nat.zero_lt_two hab))

/-- A magnitude that is a multiple of `2^j` units below `2^(53+j)` units is a
`float64` magnitude: rounding leaves it as it is. -/
theorem roundUnits_exact (n q j : Nat) (hq : 0 < q) (hdiv : 1 <<< j ∣ n)
    (hlt : n < 1 <<< (53 + j)) : roundUnits (n * q) q = n := by
  rw [Nat.one_shiftLeft] at hdiv hlt
  unfold roundUnits
  simp only
  rw [Nat.mul_div_cancel n hq]
  have hs : bitLength n - 53 ≤ j := by
    have := bitLengthAux_le n n (53 + j) hlt
    unfold bitLength
    omega
  obtain ⟨c, hc⟩ : 2 ^ (bitLength n - 53) ∣ n := dvd_trans (pow_dvd_pow 2 hs) hdiv
  generalize bitLength n - 53 = s at hc
  have hpos : 0 < q * 2 ^ s := Nat.mul_pos hq (Nat.pow_pos Nat.zero_lt_two)
  have hnq : n * q = c * (q * 2 ^ s) := by
    rw [hc]
    ring
  have hround : roundHalfEven (n * q) (q * 2 ^ s) = c := by
    unfold roundHalfEven
    simp only
    rw [hnq, Nat.mul_div_cancel c hpos, Nat.mul_mod_left]
    simp [hpos]
  rw [Nat.shiftLeft_eq q s, hround, Nat.shiftLeft_eq, hc]
  ring

theorem round_exact (neg : Bool) (n q j : Nat) (hq : 0 < q) (hj : j ≤ 2045)
    (hdiv : 1 <<< j ∣ n) (hlt : n < 1 <<< (53 + j)) :
    F64.round neg (n * q) q = .finite neg n := by
  unfold F64.round
  simp only
  rw [roundUnits_exact n q j hq hdiv hlt]
  rw [if_neg (not_shiftLeft_le n (53 + j) 2098 hlt (by omega))]

/-- The conversion of a quantity in `[0, 2^53)` is exact. -/
theorem ofInt_exact (k : Int) (h0 : 0 ≤ k) (h53 : k < 2 ^ 53) :
    F64.ofInt k = .finite false (k.toNat <<< 1074) := by
  unfold F64.ofInt
  have hneg : decide (k < 0) = false := by
    rw [decide_eq_false_iff_not]
    omega
  have habs : k.natAbs = k.toNat := by omega
  have hlt : k.toNat < 2 ^ 53 := by omega
  rw [hneg, habs]
  have h := round_exact false (k.toNat <<< 1074) 1 1074 Nat.one_pos (by omega)
    (shiftLeft_dvd _ _) (shiftLeft_lt _ _ _ hlt)
  rw [Nat.mul_one] at h
  exact h

theorem mul_shiftLeft_eq (p k e : Nat) : p * k <<< e = k * p * 1 <<< e := by
  rw [Nat.shiftLeft_eq, Nat.shiftLeft_eq]
  ring

theorem fma_shiftLeft_eq (p k a e : Nat) :
    p * k <<< e + a <<< e = (a + k * p) * 1 <<< e := by
  rw [Nat.shiftLeft_eq, Nat.shiftLeft_eq, Nat.shiftLeft_eq]
  ring

/-- One step of the loop without rounding: the total, the price and the new
total are multiples of `2^j` units below `2^(53+j)` units. -/
theorem accumulate_exact (fused : Bool) (a j : Nat) (item : OrderItem) (hj : j ≤ 2045)
    (ha : 1 <<< j ∣ a) (hneg : item.Price.neg = false) (hp : 1 <<< j ∣ item.Price.units)
    (h0 : 0 ≤ item.Quantity) (h53 : item.Quantity < 2 ^ 53)
    (hlt : a + item.Quantity.toNat * item.Price.units < 1 <<< (53 + j)) :
    accumulate fused (.finite false a) item =
      .finite false (a + item.Quantity.toNat * item.Price.units) := by
  obtain ⟨id, name, k, ⟨neg, p⟩⟩ := item
  simp only at hneg hp h0 h53 hlt ⊢
  subst hneg
  have hkp : 1 <<< j ∣ k.toNat * p := Dvd.dvd.mul_left hp _
  have hsum : 1 <<< j ∣ a + k.toNat * p := Dvd.dvd.add ha hkp
  have hkplt : k.toNat * p < 1 <<< (53 + j) := by omega
  unfold accumulate
  simp only [Finite64.toF64, ofInt_exact k h0 h53]
  cases fused with
  | false =>
    simp only [Bool.false_eq_true, if_false, F64.mul, Bool.xor_false]
    rw [mul_shiftLeft_eq,
      round_exact false (k.toNat * p) (1 <<< 1074) j (one_shiftLeft_pos _) hj hkp hkplt]
    simp only [F64.add, if_true]
    have hadd : a + k.toNat * p = (a + k.toNat * p) * 1 := (Nat.mul_one _).symm
    rw [hadd, round_exact false (a + k.toNat * p) 1 j Nat.one_pos hj hsum hlt]
    rw [Nat.mul_one]
  | true =>
    simp only [if_true, F64.fma, Bool.xor_false]
    rw [fma_shiftLeft_eq,
      round_exact false (a + k.toNat * p) (1 <<< 1074) j (one_shiftLeft_pos _) hj hsum hlt]

theorem foldl_accumulate_exact (fused : Bool) (j : Nat) (hj : j ≤ 2045)
    (items : List OrderItem) :
    ∀ a : Nat, 1 <<< j ∣ a →
      (∀ item ∈ items, item.Price.neg = false ∧ 1 <<< j ∣ item.Price.units ∧
        0 ≤ item.Quantity ∧ item.Quantity < 2 ^ 53) →
      a + (items.map (fun item => item.Quantity.toNat * item.Price.units)).sum
        < 1 <<< (53 + j) →
      items.foldl (accumulate fused) (.finite false a) =
        .finite false
          (a + (items.map (fun item => item.Quantity.toNat * item.Price.units)).sum) := by
  induction items with
  | nil =>
    intro a _ _ _
    simp
  | cons item rest ih =>
    intro a ha hall hlt
    simp only [List.map_cons, List.sum_cons] at hlt ⊢
    obtain ⟨hneg, hp, h0, h53⟩ := hall item (List.mem_cons_self _ _)
    have hstep : a + item.Quantity.toNat * item.Price.units < 1 <<< (53 + j) := by omega
    rw [List.foldl_cons, accumulate_exact fused a j item hj ha hneg hp h0 h53 hstep]
    have hdiv : 1 <<< j ∣ a + item.Quantity.toNat * item.Price.units :=
      Dvd.dvd.add ha (Dvd.dvd.mul_left hp _)
    rw [ih _ hdiv (fun it hit => hall it (List.mem_cons_of_mem _ hit)) (by omega)]
    rw [Nat.add_assoc]

theorem exactTotal_eq_sum (items : List OrderItem)
    (hall : ∀ item ∈ items, item.Price.neg = false ∧ 0 ≤ item.Quantity) :
    exactTotal items =
      (((items.map (fun item => item.Quantity.toNat * item.Price.units)).sum : Nat) : Int) := by
  unfold exactTotal
  induction items with
  | nil => simp
  | cons item rest ih =>
    obtain ⟨hneg, h0⟩ := hall item (List.mem_cons_self _ _)
    simp only [List.map_cons, List.sum_cons, Nat.cast_add, Nat.cast_mul]
    rw [ih (fun it hit => hall it (List.mem_cons_of_mem _ hit))]
    simp only [Finite64.signedUnits, hneg, Bool.false_eq_true, if_false]
    rw [Int.toNat_of_nonneg h0]

/-- When nothing needs rounding, the total of the loop is the exact total. -/
theorem totalAmount_exact (fused : Bool) (j : Nat) (items : List OrderItem)
    (h : ExactlySummable j items) :
    totalAmount fused items = .finite false (exactTotal items).toNat ∧
    (totalAmount fused items).signedUnits? = some (exactTotal items) := by
  obtain ⟨hj, hall, hlt⟩ := h
  have hsum := exactTotal_eq_sum items (fun it hit => ⟨(hall it hit).1, (hall it hit).2.2.1⟩)
  rw [hsum] at hlt ⊢
  have hlt1 : 0 + (items.map (fun item => item.Quantity.toNat * item.Price.units)).sum
      < 1 <<< (53 + j) := by
    rw [Nat.zero_add]
    exact Int.ofNat_lt.1 hlt
  have hfold := foldl_accumulate_exact fused j hj items 0 (dvd_zero _) hall hlt1
  rw [Nat.zero_add] at hfold
  have htotal : totalAmount fused items = .finite false
      (items.map (fun item => item.Quantity.toNat * item.Price.units)).sum := hfold
  rw [htotal, Int.toNat_natCast]
  exact ⟨rfl, by simp [F64.signedUnits?]⟩

/-- The table rows after the `if !exists` block of `StoreOrder`. -/
theorem occupyTable_ok {env : Env} {tx tx1 : DB} {number : Int}
    (h : occupyTable env tx number = .ok tx1) :
    tx1.orders = tx.orders ∧ tx1.notifications = tx.notifications ∧
    tx1.tables = if tableExists tx number then (updateTableOccupied tx number).tables
                 else (insertTableOccupied tx number).tables := by
  unfold occupyTable at h
  by_cases hex : tableExists tx number = true
  · simp only [hex, Bool.not_true, Bool.false_eq_true, if_false] at h
    split at h
    · cases h
    · cases h
      simp [updateTableOccupied, hex]
  · simp only [hex, Bool.not_false, if_true] at h
    split at h
    · cases h
    · cases h
      simp [insertTableOccupied, hex]

/-- What a successful `StoreOrder` leaves in the database. -/
theorem StoreOrder_ok {env : Env} {db db1 : DB} {order : Order}
    (h : StoreOrder env db order = (db1, none)) :
    (∀ o ∈ db.orders, o.id ≠ env.newID) ∧
    db1.orders = db.orders ++
      [{ id := env.newID, table_number := order.TableNumber, items := order.Items,
         status := "Pending", total_amount := totalAmount env.fused order.Items, assigned_to := none }] ∧
    db1.notifications = db.notifications ++
      [{ order_id := env.newID, notification_type := "new_order",
         message := "New order received for table " ++ toString order.TableNumber }] ∧
    db1.tables = if tableExists db order.TableNumber
                 then (updateTableOccupied db order.TableNumber).tables
                 else (insertTableOccupied db order.TableNumber).tables := by
  unfold StoreOrder at h
  split at h
  · cases h
  · split at h
    · rename_i tx htx
      cases h
      unfold StoreOrderTx at htx
      split at htx
      · cases htx
      · split at htx
        · cases htx
        · rename_i tx1 hocc
          obtain ⟨ho, hn, ht⟩ := occupyTable_ok hocc
          simp only at htx
          split at htx
          · cases htx
          · split at htx
            · cases htx
            · rename_i hfresh
              split at htx
              · cases htx
              · split at htx
                · cases htx
                · cases htx
                  refine ⟨?_, ?_, ?_, ?_⟩
                  · intro o hmem heq
                    apply hfresh
                    rw [ho]
                    simp only [List.any_eq_true, beq_iff_eq]
                    exact ⟨o, hmem, heq⟩
                  · simp [ho]
                  · simp [hn]
                  · simp [ht]
    · cases h

theorem find_table_map (f : TableRow → TableRow) (hf : ∀ t, (f t).number = t.number)
    (tables : List TableRow) (n : Int) :
    (tables.map f).find? (fun t => t.number == n) =
      (tables.find? (fun t => t.number == n)).map f := by
  induction tables with
  | nil => rfl
  | cons t rest ih =>
    simp only [List.map_cons, List.find?_cons, hf]
    split
    · rfl
    · exact ih

theorem find_table_none {tables : List TableRow} {n : Int}
    (h : tables.any (fun t => t.number == n) = false) :
    tables.find? (fun t => t.number == n) = none := by
  rw [List.find?_eq_none]
  intro t ht hn
  have : tables.any (fun t => t.number == n) = true := List.any_eq_true.2 ⟨t, ht, hn⟩
  rw [h] at this
  cases this

theorem find_table_some {tables : List TableRow} {n : Int}
    (h : tables.any (fun t => t.number == n) = true) :
    ∃ t, tables.find? (fun t => t.number == n) = some t ∧ t.number = n := by
  cases hfind : tables.find? (fun t => t.number == n) with
  | none =>
    rw [List.find?_eq_none] at hfind
    obtain ⟨t, ht, hn⟩ := List.any_eq_true.1 h
    exact absurd hn (hfind t ht)
  | some t =>
    have := List.find?_some hfind
    exact ⟨t, rfl, by simpa using this⟩

/-- The status of every table after a successful `StoreOrder`. -/
theorem StoreOrder_tableStatus {env : Env} {db db1 : DB} {order : Order}
    (h : StoreOrder env db order = (db1, none)) (n : Int) :
    tableStatus db1 n =
      if n = order.TableNumber then some "Occupied" else tableStatus db n := by
  obtain ⟨_, _, _, ht⟩ := StoreOrder_ok h
  unfold tableStatus
  rw [ht]
  by_cases hex : tableExists db order.TableNumber = true
  · simp only [hex, if_true, updateTableOccupied]
    rw [find_table_map _ (by intro t; split <;> rfl)]
    by_cases hn : n = order.TableNumber
    · subst hn
      obtain ⟨t, hfind, hnum⟩ := find_table_some hex
      simp [hfind, hnum]
    · simp only [hn, if_false]
      cases hfind : db.tables.find? (fun t => t.number == n) with
      | none => rfl
      | some t =>
        have hnum : t.number = n := by simpa using List.find?_some hfind
        have hne : ¬ t.number = order.TableNumber := by rw [hnum]; exact hn
        simp [hne]
  · have hex1 : tableExists db order.TableNumber = false := by simpa using hex
    simp only [hex1, Bool.false_eq_true, if_false, insertTableOccupied, List.find?_append]
    by_cases hn : n = order.TableNumber
    · subst hn
      simp [find_table_none hex1]
    · have hne : ¬ order.TableNumber = n := fun e => hn e.symm
      simp only [hn, if_false]
      cases hfind : db.tables.find? (fun t => t.number == n) with
      | none => simp [hne]
      | some t => simp

set_option maxRecDepth 100000 in
/-- C3 as stated fails on the total: for the valid order with the prices 0.1
and 0.2 (quantity 1 each) the stored `total_amount` is
`5404319552844596 * 2^-54` (0.30000000000000004) while quantity times price
sums to `10808639105689191 * 2^-55`, fused multiply-add or not; for
`2^53 + 1` pieces at the price 1 the stored total is `2^53`. -/
theorem StoreOrder_total_rounded :
    (∀ item ∈ tenthAndFifth.Items, 0 < item.Quantity ∧ item.Price.neg = false) ∧
    (StoreOrder (Env.ok 1 "") emptyDB tenthAndFifth).2 = none ∧
    (StoreOrder (Env.ok 1 "") emptyDB tenthAndFifth).1.orders.map
      (fun o => o.total_amount) = [.finite false (5404319552844596 <<< 1020)] ∧
    (StoreOrder fusedEnv emptyDB tenthAndFifth).1.orders.map
      (fun o => o.total_amount) = [.finite false (5404319552844596 <<< 1020)] ∧
    exactTotal tenthAndFifth.Items = ((10808639105689191 <<< 1019 : Nat) : Int) ∧
    (StoreOrder (Env.ok 1 "") emptyDB tenthAndFifth).1.orders.map
      (fun o => o.total_amount.signedUnits?) ≠ [some (exactTotal tenthAndFifth.Items)] ∧
    (StoreOrder (Env.ok 1 "") emptyDB manyPieces).1.orders.map
      (fun o => o.total_amount) = [.finite false (2 ^ 53 <<< 1074)] ∧
    exactTotal manyPieces.Items = (((2 ^ 53 + 1) <<< 1074 : Nat) : Int) := by
  decide

/-- C3, amended: a successful `StoreOrder` appends exactly one order row, with
the identifier assigned by the database, the items and table number of the
input, status `Pending` whatever the input status, and as `total_amount` the
`float64` the loop computes: from 0, each item adds price times
`float64(quantity)`, rounded to the nearest `float64`.  That total is the exact
sum of quantity times price whenever nothing needs rounding (prices that are
non-negative multiples of a common power of two, quantities in `[0, 2^53)`, an
exact total of at most 53 binary digits at that power of two).  The table of
the order is `Occupied` afterwards (its row is appended when no row had that
number) and no other table changes status; `GetOrder` with the assigned
identifier then returns the order with status `Pending`. -/
theorem StoreOrder_then_GetOrder (env env1 : Env) (db db1 : DB) (order : Order)
    (h : StoreOrder env db order = (db1, none)) (hread : env1.fails .selectOrder = false) :
    db1.orders = db.orders ++
      [{ id := env.newID, table_number := order.TableNumber, items := order.Items,
         status := "Pending", total_amount := totalAmount env.fused order.Items,
         assigned_to := none }] ∧
    (∀ j, ExactlySummable j order.Items →
      totalAmount env.fused order.Items = .finite false (exactTotal order.Items).toNat ∧
      (totalAmount env.fused order.Items).signedUnits? = some (exactTotal order.Items)) ∧
    tableStatus db1 order.TableNumber = some "Occupied" ∧
    (tableExists db order.TableNumber = false →
      db1.tables = db.tables ++
        [{ number := order.TableNumber, status := "Occupied", capacity := none }]) ∧
    (∀ n, n ≠ order.TableNumber → tableStatus db1 n = tableStatus db n) ∧
    GetOrder env1 db1 env.newID =
      .ok { ID := env.newID, TableNumber := order.TableNumber, Items := order.Items,
            Status := "Pending", OrderTime := 0 } := by
  obtain ⟨hfresh, ho, _, ht⟩ := StoreOrder_ok h
  refine ⟨ho, ?_, ?_, ?_, ?_, ?_⟩
  · intro j hj
    exact totalAmount_exact env.fused j order.Items hj
  · rw [StoreOrder_tableStatus h, if_pos rfl]
  · intro hex
    rw [ht]
    simp [hex, insertTableOccupied]
  · intro n hn
    rw [StoreOrder_tableStatus h, if_neg hn]
  · have hnone : db.orders.find? (fun o => o.id == env.newID) = none := by
      rw [List.find?_eq_none]
      intro o ho1
      simpa using hfresh o ho1
    simp [GetOrder, hread, ho, List.find?_append, hnone]

set_option maxRecDepth 100000 in
/-- Witness of the amended C3: on the empty database the order for table 7 with
two soups at 5.00 and one bread at 2.50 is stored with total 12.50
(`25 * 2^-1`), the exact sum; table 7 is `Occupied`, and `GetOrder` returns the
order with status `Pending`. -/
theorem StoreOrder_then_GetOrder_witness :
    (StoreOrder (Env.ok 1 "2025-01-01T12:00:00Z") emptyDB soupAndBread).2 = none ∧
    (StoreOrder (Env.ok 1 "2025-01-01T12:00:00Z") emptyDB soupAndBread).1.orders.map
      (fun o => o.total_amount) = [.finite false (25 <<< 1073)] ∧
    totalAmount false soupAndBread.Items =
      .finite false (exactTotal soupAndBread.Items).toNat ∧
    tableStatus (StoreOrder (Env.ok 1 "2025-01-01T12:00:00Z") emptyDB soupAndBread).1 7 =
      some "Occupied" ∧
    GetOrder (Env.ok 1 "2025-01-01T12:00:00Z")
      (StoreOrder (Env.ok 1 "2025-01-01T12:00:00Z") emptyDB soupAndBread).1 1 =
      .ok { soupAndBread with ID := 1, Status := "Pending" } := by
  have h : StoreOrder (Env.ok 1 "2025-01-01T12:00:00Z") emptyDB soupAndBread =
      ((StoreOrder (Env.ok 1 "2025-01-01T12:00:00Z") emptyDB soupAndBread).1, none) := rfl
  obtain ⟨_, hexact, ht, _, _, hg⟩ := StoreOrder_then_GetOrder
    (Env.ok 1 "2025-01-01T12:00:00Z") (Env.ok 1 "2025-01-01T12:00:00Z") emptyDB _
    soupAndBread h rfl
  have hsum : ExactlySummable 1073 soupAndBread.Items := by
    refine ⟨?_, ?_, ?_⟩ <;> decide
  exact ⟨rfl, by decide, (hexact 1073 hsum).1, ht, hg⟩

/-- What a successful `UpdateOrderStatus` leaves in the database. -/
theorem UpdateOrderStatus_ok {env : Env} {db db1 : DB} {orderID : Int} {status chefName : String}
    (h : UpdateOrderStatus env db orderID status chefName = (db1, none)) :
    (∃ o ∈ db.orders, o.id = orderID) ∧
    db1.orders = (setOrderStatus db orderID status).orders ∧
    db1.tables = (if status = "Completed"
                  then (releaseTable (setOrderStatus db orderID status) orderID).tables
                  else db.tables) ∧
    db1.notifications = db.notifications ++
      [{ order_id := orderID, notification_type := "status_change",
         message := "Order #" ++ toString orderID ++ " status changed to " ++ status }] := by
  unfold UpdateOrderStatus at h
  split at h
  · cases h
  · split at h
    · rename_i tx htx
      cases h
      unfold UpdateOrderStatusTx at htx
      split at htx
      · cases htx
      · simp only at htx
        split at htx
        · cases htx
        · split at htx
          · cases htx
          · rename_i haff
            split at htx
            · cases htx
            · rename_i tx1 hrel
              split at htx
              · cases htx
              · split at htx
                · cases htx
                · cases htx
                  have hex : ∃ o ∈ db.orders, o.id = orderID := by
                    by_contra hno
                    apply haff
                    have : db.orders.filter (fun o => o.id == orderID) = [] := by
                      rw [List.filter_eq_nil_iff]
                      intro o ho heq
                      exact hno ⟨o, ho, by simpa using heq⟩
                    simp [rowsAffected, this]
                  unfold releaseIfCompleted at hrel
                  by_cases hst : status = "Completed"
                  · simp only [hst, beq_self_eq_true, if_true] at hrel
                    split at hrel
                    · cases hrel
                    · cases hrel
                      refine ⟨hex, ?_, ?_, ?_⟩
                      · simp [releaseTable, hst]
                      · simp [hst]
                      · simp [releaseTable, setOrderStatus, hst]
                  · have hst1 : (status == "Completed") = false := by simpa using hst
                    simp only [hst1, Bool.false_eq_true, if_false] at hrel
                    cases hrel
                    refine ⟨hex, rfl, ?_, ?_⟩
                    · simp [hst, setOrderStatus]
                    · simp [setOrderStatus]
    · cases h

theorem any_setOrderStatus (db : DB) (orderID : Int) (status : String) (n : Int) :
    (setOrderStatus db orderID status).orders.any
        (fun o => o.id == orderID && n == o.table_number) =
      db.orders.any (fun o => o.id == orderID && n == o.table_number) := by
  simp only [setOrderStatus, List.any_map]
  congr 1
  funext o
  simp only [Function.comp]
  split <;> rfl

theorem any_order_table_iff (db : DB) (orderID n : Int) :
    db.orders.any (fun o => o.id == orderID && n == o.table_number) = true ↔
      ∃ o ∈ db.orders, o.id = orderID ∧ o.table_number = n := by
  simp only [List.any_eq_true, Bool.and_eq_true, beq_iff_eq]
  constructor
  · rintro ⟨o, ho, h1, h2⟩
    exact ⟨o, ho, h1, h2.symm⟩
  · rintro ⟨o, ho, h1, h2⟩
    exact ⟨o, ho, h1, h2.symm⟩

/-- The table rows after a successful update to `Completed`: every row whose
number is the table number of an order row with this identifier has status
`Available`, every other row is as before. -/
theorem UpdateOrderStatus_completed_rows {env : Env} {db db1 : DB} {orderID : Int}
    {chefName : String}
    (h : UpdateOrderStatus env db orderID "Completed" chefName = (db1, none)) :
    db1.tables = db.tables.map (fun t =>
      if db.orders.any (fun o => o.id == orderID && t.number == o.table_number)
      then { t with status := "Available" } else t) := by
  obtain ⟨_, _, ht, _⟩ := UpdateOrderStatus_ok h
  rw [ht, if_pos rfl]
  simp only [releaseTable]
  have htab : (setOrderStatus db orderID "Completed").tables = db.tables := rfl
  rw [htab]
  apply List.map_congr_left
  intro t _
  rw [any_setOrderStatus]

/-- After a successful update to `Completed`, the table of the order reads
`Available`. -/
theorem completed_table_available {env : Env} {db db1 : DB} {orderID : Int} {chefName : String}
    (h : UpdateOrderStatus env db orderID "Completed" chefName = (db1, none))
    {o : OrderRow} (ho : o ∈ db.orders) (hid : o.id = orderID)
    (hex : tableExists db o.table_number = true) :
    tableStatus db1 o.table_number = some "Available" := by
  unfold tableStatus
  rw [UpdateOrderStatus_completed_rows h, find_table_map _ (by intro t; split <;> rfl)]
  obtain ⟨t, hfind, hnum⟩ := find_table_some hex
  have hany : db.orders.any (fun o => o.id == orderID && t.number == o.table_number) = true :=
    (any_order_table_iff db orderID t.number).2 ⟨o, ho, hid, hnum.symm⟩
  rw [hfind, Option.map_some', Option.map_some', if_pos hany]

/-- After a successful update to `Completed`, a table that is not the table of
the order reads as before. -/
theorem completed_table_other {env : Env} {db db1 : DB} {orderID : Int} {chefName : String}
    (h : UpdateOrderStatus env db orderID "Completed" chefName = (db1, none))
    {n : Int} (hno : ∀ o ∈ db.orders, o.id = orderID → o.table_number ≠ n) :
    tableStatus db1 n = tableStatus db n := by
  unfold tableStatus
  rw [UpdateOrderStatus_completed_rows h, find_table_map _ (by intro t; split <;> rfl)]
  cases hfind : db.tables.find? (fun t => t.number == n) with
  | none => rfl
  | some t =>
    have hnum : t.number = n := by simpa using List.find?_some hfind
    have hany : ¬ db.orders.any (fun o => o.id == orderID && t.number == o.table_number) = true := by
      intro hany
      obtain ⟨o, ho, hid, hnum1⟩ := (any_order_table_iff db orderID t.number).1 hany
      exact hno o ho hid (hnum1.trans hnum)
    rw [Option.map_some', Option.map_some', if_neg hany]
    rfl

/-- C4: a successful `UpdateOrderStatus(orderID, "Completed")` sets to
`Available` the table whose number is the table number of the order, and
changes nothing else in the tables: row by row the number and the capacity are
kept, the status becomes `Available` on the rows of the order's table and is
kept on every other row. -/
theorem UpdateOrderStatus_completed_tables (env : Env) (db db1 : DB) (orderID : Int)
    (chefName : String)
    (h : UpdateOrderStatus env db orderID "Completed" chefName = (db1, none)) :
    (∃ o ∈ db.orders, o.id = orderID) ∧
    List.Forall₂ (fun t t1 =>
        t1.number = t.number ∧ t1.capacity = t.capacity ∧
        ((∃ o ∈ db.orders, o.id = orderID ∧ o.table_number = t.number) →
          t1.status = "Available") ∧
        ((∀ o ∈ db.orders, o.id = orderID → o.table_number ≠ t.number) →
          t1.status = t.status))
      db.tables db1.tables ∧
    (∀ o ∈ db.orders, o.id = orderID → tableExists db o.table_number = true →
      tableStatus db1 o.table_number = some "Available") ∧
    (∀ n, (∀ o ∈ db.orders, o.id = orderID → o.table_number ≠ n) →
      tableStatus db1 n = tableStatus db n) := by
  refine ⟨(UpdateOrderStatus_ok h).1, ?_, ?_, ?_⟩
  · rw [UpdateOrderStatus_completed_rows h, List.forall₂_map_right_iff, List.forall₂_same]
    intro t _
    by_cases hany : db.orders.any (fun o => o.id == orderID && t.number == o.table_number) = true
    · have hex := (any_order_table_iff db orderID t.number).1 hany
      rw [if_pos hany]
      refine ⟨rfl, rfl, fun _ => rfl, fun hno => ?_⟩
      obtain ⟨o, ho, hid, hnum⟩ := hex
      exact absurd hnum (hno o ho hid)
    · have hno : ¬ ∃ o ∈ db.orders, o.id = orderID ∧ o.table_number = t.number :=
        fun hex => hany ((any_order_table_iff db orderID t.number).2 hex)
      rw [if_neg hany]
      exact ⟨rfl, rfl, fun hex => absurd hex hno, fun _ => rfl⟩
  · intro o ho hid hex
    exact completed_table_available h ho hid hex
  · intro n hno
    exact completed_table_other h hno

/-- Witness of C4: completing order 1 of table 7 makes table 7 `Available` and
leaves table 8 `Occupied`. -/
theorem UpdateOrderStatus_completed_tables_witness :
    (UpdateOrderStatus (Env.ok 0 "") twoTablesDB 1 "Completed" "").2 = none ∧
    tableStatus (UpdateOrderStatus (Env.ok 0 "") twoTablesDB 1 "Completed" "").1 7 =
      some "Available" ∧
    tableStatus (UpdateOrderStatus (Env.ok 0 "") twoTablesDB 1 "Completed" "").1 8 =
      some "Occupied" :=
  have h : UpdateOrderStatus (Env.ok 0 "") twoTablesDB 1 "Completed" "" =
      ((UpdateOrderStatus (Env.ok 0 "") twoTablesDB 1 "Completed" "").1, none) := rfl
  ⟨rfl,
   (UpdateOrderStatus_completed_tables (Env.ok 0 "") twoTablesDB _ 1 "" h).2.2.1
      { id := 1, table_number := 7, items := [], status := "Pending", total_amount := 0,
        assigned_to := none }
      (List.mem_singleton.2 rfl) rfl (by decide),
   ((UpdateOrderStatus_completed_tables (Env.ok 0 "") twoTablesDB _ 1 "" h).2.2.2 8
      (by
        intro o ho _
        rw [List.mem_singleton.1 ho]
        decide)).trans (by decide)⟩

/-- C5: when no order row has the identifier, `UpdateOrderStatus` returns an
error and the database after the call is the database before it (orders,
tables and notifications alike); when the driver itself reports no error, the
error returned is the not-found error for that identifier. -/
theorem UpdateOrderStatus_not_found (env : Env) (db : DB) (orderID : Int)
    (status chefName : String) (hno : ∀ o ∈ db.orders, o.id ≠ orderID) :
    (∃ e, UpdateOrderStatus env db orderID status chefName = (db, some e)) ∧
    (env.fails .beginTx = false → env.fails .updateOrderStatus = false →
      env.fails .rowsAffected = false →
      UpdateOrderStatus env db orderID status chefName = (db, some (.notFound orderID))) := by
  have haff : rowsAffected db orderID = 0 := by
    have : db.orders.filter (fun o => o.id == orderID) = [] := by
      rw [List.filter_eq_nil_iff]
      intro o ho heq
      exact hno o ho (by simpa using heq)
    simp [rowsAffected, this]
  have htx : ∃ e, UpdateOrderStatusTx env db orderID status chefName = .error e := by
    unfold UpdateOrderStatusTx
    by_cases h1 : env.fails .updateOrderStatus = true
    · exact ⟨.io .updateOrderStatus, by simp [h1]⟩
    · by_cases h2 : env.fails .rowsAffected = true
      · exact ⟨.io .rowsAffected, by simp [h1, h2]⟩
      · exact ⟨.notFound orderID, by simp [h1, h2, haff]⟩
  constructor
  · unfold UpdateOrderStatus
    by_cases h0 : env.fails .beginTx = true
    · exact ⟨.io .beginTx, by simp [h0]⟩
    · obtain ⟨e, he⟩ := htx
      exact ⟨e, by simp [h0, he]⟩
  · intro h0 h1 h2
    simp [UpdateOrderStatus, UpdateOrderStatusTx, h0, h1, h2, haff]

/-- Witness of C5: no order 99 exists in the example database. -/
theorem UpdateOrderStatus_not_found_witness :
    UpdateOrderStatus (Env.ok 0 "") twoTablesDB 99 "Completed" "" =
      (twoTablesDB, some (.notFound 99)) :=
  (UpdateOrderStatus_not_found (Env.ok 0 "") twoTablesDB 99 "Completed" ""
    (by
      intro o ho
      rw [List.mem_singleton.1 ho]
      decide)).2 rfl rfl rfl

/-- C10 as stated fails: order 1 is `Pending` on table 7, which is `Occupied`;
the update to `Cancelled` succeeds and table 7 is still `Occupied`, not
`Available`. -/
theorem UpdateOrderStatus_cancelled_not_released :
    (∃ o ∈ twoTablesDB.orders, o.id = 1 ∧
      tableStatus twoTablesDB o.table_number = some "Occupied") ∧
    (UpdateOrderStatus (Env.ok 0 "") twoTablesDB 1 "Cancelled" "").2 = none ∧
    tableStatus (UpdateOrderStatus (Env.ok 0 "") twoTablesDB 1 "Cancelled" "").1 7 =
      some "Occupied" ∧
    ¬ tableStatus (UpdateOrderStatus (Env.ok 0 "") twoTablesDB 1 "Cancelled" "").1 7 =
      some "Available" := by
  decide

/-- C10, amended: a successful `UpdateOrderStatus` to `Cancelled` leaves the
table rows as they are, so the table of the order, `Occupied` before, is
`Occupied` afterwards; the release is tied to `Completed` alone. -/
theorem UpdateOrderStatus_cancelled_tables (env : Env) (db db1 : DB) (orderID : Int)
    (chefName : String) (o : OrderRow) (ho : o ∈ db.orders) (hid : o.id = orderID)
    (hocc : tableStatus db o.table_number = some "Occupied")
    (h : UpdateOrderStatus env db orderID "Cancelled" chefName = (db1, none)) :
    db1.tables = db.tables ∧ tableStatus db1 o.table_number = some "Occupied" ∧
    (∃ c ∈ db1.orders, c.id = orderID ∧ c.status = "Cancelled") := by
  obtain ⟨_, hord, ht, _⟩ := UpdateOrderStatus_ok h
  have ht1 : db1.tables = db.tables := by
    rw [ht, if_neg (by decide)]
  refine ⟨ht1, ?_, ?_⟩
  · unfold tableStatus at hocc ⊢
    rw [ht1]
    exact hocc
  · refine ⟨{ o with status := "Cancelled" }, ?_, hid, rfl⟩
    rw [hord]
    simp only [setOrderStatus]
    exact List.mem_map.2 ⟨o, ho, by simp [hid]⟩

/-- Witness of the amended C10 on the example database. -/
theorem UpdateOrderStatus_cancelled_tables_witness :
    (UpdateOrderStatus (Env.ok 0 "") twoTablesDB 1 "Cancelled" "").1.tables =
      twoTablesDB.tables :=
  (UpdateOrderStatus_cancelled_tables (Env.ok 0 "") twoTablesDB _ 1 ""
    { id := 1, table_number := 7, items := [], status := "Pending", total_amount := 0,
      assigned_to := none }
    (List.mem_singleton.2 rfl) rfl (by decide) rfl).1

/-! ## Table occupancy across calls -/

theorem StoreOrder_fst (env : Env) (db : DB) (order : Order) :
    (StoreOrder env db order).1 = db ∨
      StoreOrder env db order = ((StoreOrder env db order).1, none) := by
  unfold StoreOrder
  by_cases h0 : env.fails .beginTx = true
  · left
    simp [h0]
  · cases htx : StoreOrderTx env db order with
    | error e => left; simp [h0]
    | ok tx => right; simp [h0]

theorem UpdateOrderStatus_fst (env : Env) (db : DB) (orderID : Int) (status chefName : String) :
    (UpdateOrderStatus env db orderID status chefName).1 = db ∨
      UpdateOrderStatus env db orderID status chefName =
        ((UpdateOrderStatus env db orderID status chefName).1, none) := by
  unfold UpdateOrderStatus
  by_cases h0 : env.fails .beginTx = true
  · left
    simp [h0]
  · cases htx : UpdateOrderStatusTx env db orderID status chefName with
    | error e => left; simp [h0]
    | ok tx => right; simp [h0]

theorem no_reference_left (notifications : List NotificationRow) (orderID : Int) :
    (notifications.filter (fun n => n.order_id != orderID)).any
      (fun n => n.order_id == orderID) = false := by
  rw [← Bool.not_eq_true, List.any_eq_true]
  rintro ⟨n, hn, heq⟩
  have hne := (List.mem_filter.1 hn).2
  simp only [bne_iff_ne, ne_eq] at hne
  exact hne (by simpa using heq)

/-- The four ways `DeleteOrder` can fail, and what it leaves otherwise: the
foreign key never rejects the deletion, the notification rows of the order
being deleted first. -/
theorem DeleteOrder_eq (env : Env) (db : DB) (orderID : Int) :
    DeleteOrder env db orderID =
      if env.fails .beginTx then (db, some (.io .beginTx))
      else if env.fails .deleteNotifications then (db, some (.io .deleteNotifications))
      else if env.fails .deleteOrder then (db, some (.io .deleteOrder))
      else if env.fails .commit then (db, some (.io .commit))
      else ({ orders := db.orders.filter (fun o => o.id != orderID),
              tables := db.tables,
              notifications := db.notifications.filter (fun n => n.order_id != orderID) },
            none) := by
  unfold DeleteOrder DeleteOrderTx
  by_cases h0 : env.fails .beginTx = true
  · simp [h0]
  · by_cases h1 : env.fails .deleteNotifications = true
    · simp [h0, h1]
    · by_cases h2 : env.fails .deleteOrder = true
      · simp [h0, h1, h2]
      · by_cases h3 : env.fails .commit = true
        · simp only [h0, h1, h2, h3, no_reference_left, Bool.and_false, Bool.false_eq_true,
            if_false, if_true]
        · simp only [h0, h1, h2, h3, no_reference_left, Bool.and_false, Bool.false_eq_true,
            if_false]

/-- The database after `DeleteOrder`, whether it fails or not: the tables are
kept and the orders left are orders of before. -/
theorem DeleteOrder_fst (env : Env) (db : DB) (orderID : Int) :
    (DeleteOrder env db orderID).1.tables = db.tables ∧
    ∀ o ∈ (DeleteOrder env db orderID).1.orders, o ∈ db.orders := by
  rw [DeleteOrder_eq]
  by_cases h0 : env.fails .beginTx = true
  · simp [h0]
  · by_cases h1 : env.fails .deleteNotifications = true
    · simp [h0, h1]
    · by_cases h2 : env.fails .deleteOrder = true
      · simp [h0, h1, h2]
      · by_cases h3 : env.fails .commit = true
        · simp [h0, h1, h2, h3]
        · simp only [h0, h1, h2, h3, Bool.false_eq_true, if_false, true_and]
          intro o ho
          exact (List.mem_filter.1 ho).1

theorem tableStatus_congr {db db1 : DB} (h : db1.tables = db.tables) (n : Int) :
    tableStatus db1 n = tableStatus db n := by
  unfold tableStatus
  rw [h]

/-- Every guarded call keeps the invariant. -/
theorem step_preserves (db : DB) (op : StoreOp) (hinv : OccupiedWhilePending db)
    (hg : Guarded db op) : OccupiedWhilePending (step db op) := by
  cases op with
  | store env order =>
    simp only [step]
    rcases StoreOrder_fst env db order with hsame | hok
    · rw [hsame]
      exact hinv
    · obtain ⟨_, ho, _, _⟩ := StoreOrder_ok hok
      intro o hmem hpend
      rw [StoreOrder_tableStatus hok]
      rw [ho] at hmem
      rcases List.mem_append.1 hmem with hold | hnew
      · by_cases hn : o.table_number = order.TableNumber
        · rw [if_pos hn]
        · rw [if_neg hn]
          exact hinv o hold hpend
      · rw [List.mem_singleton.1 hnew, if_pos rfl]
  | delete env orderID =>
    simp only [step]
    obtain ⟨ht, ho⟩ := DeleteOrder_fst env db orderID
    intro o hmem hpend
    rw [tableStatus_congr ht]
    exact hinv o (ho o hmem) hpend
  | update env orderID status chefName =>
    simp only [step]
    rcases UpdateOrderStatus_fst env db orderID status chefName with hsame | hok
    · rw [hsame]
      exact hinv
    · obtain ⟨_, hord, ht, _⟩ := UpdateOrderStatus_ok hok
      obtain ⟨hgc, hgp⟩ := hg
      intro o1 hmem hpend
      rw [hord] at hmem
      simp only [setOrderStatus] at hmem
      obtain ⟨o, ho, rfl⟩ := List.mem_map.1 hmem
      by_cases hid : o.id = orderID
      · have hid1 : (o.id == orderID) = true := by simpa using hid
        simp only [hid1, if_true] at hpend ⊢
        have hne : ¬ status = "Completed" := by
          rw [hpend]
          decide
        rw [if_neg hne] at ht
        rw [tableStatus_congr ht]
        exact hgp hpend o ho hid
      · have hid1 : (o.id == orderID) = false := by simpa using hid
        simp only [hid1, Bool.false_eq_true, if_false] at hpend ⊢
        by_cases hst : status = "Completed"
        · subst hst
          rw [completed_table_other hok
            (fun c hc hcid => hgc rfl o ho hpend hid c hc hcid)]
          exact hinv o ho hpend
        · rw [if_neg hst] at ht
          rw [tableStatus_congr ht]
          exact hinv o ho hpend

/-- C9 as stated fails: after two orders are stored for table 7 and the first
one is completed, the second order is `Pending` while table 7 is `Available`;
likewise after an order is completed and then put back to `Pending`. -/
theorem OccupiedWhilePending_not_invariant :
    (∃ o ∈ (run emptyDB completeOneOfTwo).orders, o.status = "Pending" ∧
      tableStatus (run emptyDB completeOneOfTwo) o.table_number = some "Available") ∧
    ¬ OccupiedWhilePending (run emptyDB completeOneOfTwo) ∧
    ¬ OccupiedWhilePending (run emptyDB reopenCompleted) := by
  have hex : ∃ o ∈ (run emptyDB completeOneOfTwo).orders, o.status = "Pending" ∧
      tableStatus (run emptyDB completeOneOfTwo) o.table_number = some "Available" := by
    decide
  have hex1 : ∃ o ∈ (run emptyDB reopenCompleted).orders, o.status = "Pending" ∧
      tableStatus (run emptyDB reopenCompleted) o.table_number = some "Available" := by
    decide
  refine ⟨hex, fun hinv => ?_, fun hinv => ?_⟩
  · obtain ⟨o, ho, hpend, havail⟩ := hex
    have hocc := hinv o ho hpend
    rw [havail] at hocc
    exact absurd hocc (by decide)
  · obtain ⟨o, ho, hpend, havail⟩ := hex1
    have hocc := hinv o ho hpend
    rw [havail] at hocc
    exact absurd hocc (by decide)

/-- C9, amended: from the empty database, every sequence of `StoreOrder`,
`UpdateOrderStatus` and `DeleteOrder` calls (failing or not) in which each
update to `Completed` finds no other `Pending` order on the table of the
completed order, and each update to `Pending` finds the table of the order
`Occupied`, ends in a state where every table with a `Pending` order against
it is `Occupied`. -/
theorem OccupiedWhilePending_of_guarded (ops : List StoreOp)
    (hg : GuardedRun emptyDB ops) : OccupiedWhilePending (run emptyDB ops) := by
  have hgen : ∀ (ops : List StoreOp) (db : DB), OccupiedWhilePending db → GuardedRun db ops →
      OccupiedWhilePending (run db ops) := by
    intro ops
    induction ops with
    | nil => intro db hinv _; exact hinv
    | cons op rest ih =>
      intro db hinv hgr
      exact ih (step db op) (step_preserves db op hinv hgr.1) hgr.2
  apply hgen ops emptyDB _ hg
  intro o ho
  simp [emptyDB] at ho

/-- Witness of the amended C9: a table used by one order, released, and used
by the next order. -/
theorem OccupiedWhilePending_of_guarded_witness :
    OccupiedWhilePending (run emptyDB oneAfterTheOther) :=
  OccupiedWhilePending_of_guarded oneAfterTheOther
    ⟨trivial, ⟨by decide, by decide⟩, trivial, trivial⟩

/-! ## Published events -/

/-- The only queue `PublishOrderEvent` publishes to is `order.created`. -/
theorem PublishOrderEvent_bus (env : Env) (bus : Bus) (order : Order) :
    (PublishOrderEvent env bus order).1 = bus ∨
    (PublishOrderEvent env bus order).1 =
      bus ++ [{ queue := "order.created", body := orderNotificationJSON order env.now }] := by
  unfold PublishOrderEvent
  by_cases h1 : env.fails .dial = true
  · left; simp [h1]
  · by_cases h2 : env.fails .channel = true
    · left; simp [h1, h2]
    · by_cases h3 : env.fails .queueDeclare = true
      · left; simp [h1, h2, h3]
      · by_cases h4 : env.fails .publish = true
        · left; simp [h1, h2, h3, h4]
        · right; simp [h1, h2, h3, h4]

/-- C6, evaluated on order 1 of table 7: the workflow succeeds and publishes
one message, to the queue `order.created`; nothing is published to
`order.status`; the body has no member `order_id`, and the consumer of
`order.created` turns it into a `new_order` notification. -/
theorem UpdateOrderStatusWorkflow_publishes_to_created :
    (UpdateOrderStatusWorkflow calmEnvs ⟨twoTablesDB, []⟩ 1 "Completed").2 = none ∧
    (UpdateOrderStatusWorkflow calmEnvs ⟨twoTablesDB, []⟩ 1 "Completed").1.bus.map
      (fun m => m.queue) = ["order.created"] ∧
    (UpdateOrderStatusWorkflow calmEnvs ⟨twoTablesDB, []⟩ 1 "Completed").1.bus.filter
      (fun m => m.queue == "order.status") = [] ∧
    (UpdateOrderStatusWorkflow calmEnvs ⟨twoTablesDB, []⟩ 1 "Completed").1.bus.map
      (fun m => (m.body.lookup "order_id", jsonInt m.body "id", jsonStr m.body "status")) =
      [(none, some 1, some "Completed")] ∧
    (UpdateOrderStatusWorkflow calmEnvs ⟨twoTablesDB, []⟩ 1 "Completed").1.bus.map
      (fun m => (orderCreatedNotification "20250101120000.000" m.body).map (fun n => n.Typ)) =
      [some "new_order"] := by
  decide

/-- C7, evaluated on the order of the scenario, sent with `ID` 0: the workflow
succeeds, the database assigns the identifier 1 to the stored row, and the
message published to `order.created` carries the identifier 0 of the input. -/
theorem OrderWorkflow_publishes_input_ID :
    (OrderWorkflow calmEnvs ⟨emptyDB, []⟩ soupAndBread).2 = none ∧
    (OrderWorkflow calmEnvs ⟨emptyDB, []⟩ soupAndBread).1.db.orders.map (fun o => o.id) = [1] ∧
    (OrderWorkflow calmEnvs ⟨emptyDB, []⟩ soupAndBread).1.bus.map
      (fun m => (m.queue, jsonInt m.body "id")) = [("order.created", some 0)] := by
  decide

/-- C8, evaluated on one `order.created` message and one `order.status` message,
each delivered twice, one millisecond apart: the two deliveries get different
identities, and the second delivery is written to the subscriber like the first. -/
theorem redelivery_gets_new_identity :
    (orderCreatedNotification "20250101120000.000" createdBody).map (fun n => n.ID) =
      some "new_order_5_20250101120000.000" ∧
    (orderCreatedNotification "20250101120000.001" createdBody).map (fun n => n.ID) =
      some "new_order_5_20250101120000.001" ∧
    (onOrderCreated "20250101120000.000" quietHubEnv oneSubscriber createdBody).writes.length = 1 ∧
    (onOrderCreated "20250101120000.001" quietHubEnv
      (onOrderCreated "20250101120000.000" quietHubEnv oneSubscriber createdBody).hub
      createdBody).writes.length = 1 ∧
    (statusChangeNotification "20250101120000.000" "2025-01-01T12:00:00Z" statusBody).map
      (fun n => n.ID) = some "status_change_5_Completed_20250101120000.000" ∧
    (statusChangeNotification "20250101120000.001" "2025-01-01T12:00:00Z" statusBody).map
      (fun n => n.ID) = some "status_change_5_Completed_20250101120000.001" ∧
    (onOrderStatus "20250101120000.001" "2025-01-01T12:00:00Z" quietHubEnv
      (onOrderStatus "20250101120000.000" "2025-01-01T12:00:00Z" quietHubEnv oneSubscriber
        statusBody).hub
      statusBody).writes.length = 1 := by
  decide

/-! ## Size of the dedup cache -/

theorem mapSet_length_le (m : List String) (id : String) :
    (mapSet m id).length ≤ m.length + 1 := by
  unfold mapSet
  split
  · omega
  · simp

theorem mem_mapSet {m : List String} {id k : String} (h : k ∈ mapSet m id) :
    k ∈ m ∨ k = id := by
  unfold mapSet at h
  split at h
  · exact Or.inl h
  · rcases List.mem_append.1 h with h1 | h1
    · exact Or.inl h1
    · exact Or.inr (List.mem_singleton.1 h1)

theorem compactLoop_length (l newMap : List String) (count : Nat)
    (hlen : newMap.length ≤ count) (hcount : count < 50) :
    (compactLoop l newMap count).length ≤ 50 := by
  induction l generalizing newMap count with
  | nil =>
    simp only [compactLoop]
    omega
  | cons k rest ih =>
    simp only [compactLoop]
    have hset := mapSet_length_le newMap k
    split
    · omega
    · apply ih
      · omega
      · omega

theorem compactLoop_mem (l newMap : List String) (count : Nat) :
    ∀ k ∈ compactLoop l newMap count, k ∈ newMap ∨ k ∈ l := by
  induction l generalizing newMap count with
  | nil =>
    intro k hk
    exact Or.inl hk
  | cons x rest ih =>
    intro k hk
    simp only [compactLoop] at hk
    split at hk
    · rcases mem_mapSet hk with h1 | h1
      · exact Or.inl h1
      · exact Or.inr (by rw [h1]; exact List.mem_cons_self _ _)
    · rcases ih _ _ k hk with h1 | h1
      · rcases mem_mapSet h1 with h2 | h2
        · exact Or.inl h2
        · exact Or.inr (by rw [h2]; exact List.mem_cons_self _ _)
      · exact Or.inr (List.mem_cons_of_mem _ h1)

/-- C14: whatever the cache and the identity, the cache after
`trackNotification` has at most 100 entries; when the insert makes more than
100, the cache is replaced by one of at most 50 entries, each an entry of the
cache as it was after the insert; otherwise the cache is the one after the
insert.  The `range` loop is only assumed to visit keys of the map. -/
theorem trackNotification_bounded (rangeOrder : List String → List String)
    (recentNotifications : List String) (id : String)
    (hrange : ∀ m, ∀ k ∈ rangeOrder m, k ∈ m) :
    (trackNotification rangeOrder recentNotifications id).length ≤ 100 ∧
    ((mapSet recentNotifications id).length > 100 →
      (trackNotification rangeOrder recentNotifications id).length ≤ 50 ∧
      ∀ k ∈ trackNotification rangeOrder recentNotifications id,
        k ∈ mapSet recentNotifications id) ∧
    ((mapSet recentNotifications id).length ≤ 100 →
      trackNotification rangeOrder recentNotifications id = mapSet recentNotifications id) := by
  have hbig : (mapSet recentNotifications id).length > 100 →
      (trackNotification rangeOrder recentNotifications id).length ≤ 50 ∧
      ∀ k ∈ trackNotification rangeOrder recentNotifications id,
        k ∈ mapSet recentNotifications id := by
    intro hgt
    simp only [trackNotification, hgt, if_true]
    refine ⟨compactLoop_length _ [] 0 (by simp) (by omega), ?_⟩
    intro k hk
    rcases compactLoop_mem _ [] 0 k hk with h1 | h1
    · simp at h1
    · exact hrange _ k h1
  have hsmall : (mapSet recentNotifications id).length ≤ 100 →
      trackNotification rangeOrder recentNotifications id = mapSet recentNotifications id := by
    intro hle
    have hnot : ¬ (mapSet recentNotifications id).length > 100 := by omega
    simp only [trackNotification, hnot, if_false]
  refine ⟨?_, hbig, hsmall⟩
  by_cases hgt : (mapSet recentNotifications id).length > 100
  · have := (hbig hgt).1
    omega
  · have hle : (mapSet recentNotifications id).length ≤ 100 := by omega
    rw [hsmall hle]
    exact hle

set_option maxRecDepth 100000 in
/-- Witness of C14: a new identity tracked in a cache of 100 entries, the
`range` loop visiting the map in insertion order. -/
theorem trackNotification_bounded_witness :
    (trackNotification (fun m => m) fullCache "fresh").length ≤ 50 :=
  ((trackNotification_bounded (fun m => m) fullCache "fresh" (fun _ _ hk => hk)).2.1
    (by decide)).1

/-! ## The registry after a fan-out -/

theorem fanOut_failed (writeFails : Conn → Bool) (typ : String)
    (clients : List (Conn × String)) :
    (fanOut writeFails typ clients).2 =
      (clients.filter (fun p => roomMatches p.2 typ && writeFails p.1)).map Prod.fst := by
  induction clients with
  | nil => rfl
  | cons p rest ih =>
    obtain ⟨conn, room⟩ := p
    simp only [fanOut, List.filter_cons]
    by_cases hroom : roomMatches room typ = true
    · by_cases hw : writeFails conn = true <;> simp [hroom, hw, ih]
    · simp [hroom, ih]

theorem removeFailed_eq_filter (clients : List (Conn × String)) (failed : List Conn) :
    removeFailed clients failed = clients.filter (fun p => decide (p.1 ∉ failed)) := by
  unfold removeFailed
  induction failed generalizing clients with
  | nil => simp
  | cons c rest ih =>
    rw [List.foldl_cons, ih, List.filter_filter]
    apply List.filter_congr
    intro p _
    by_cases hc : p.1 = c
    · simp [hc]
    · by_cases hr : p.1 ∈ rest <;> simp [hc, hr]

theorem mem_failed_iff (writeFails : Conn → Bool) (typ : String)
    {clients : List (Conn × String)} (hkeys : (clients.map Prod.fst).Nodup)
    {conn : Conn} {room : String} (h : (conn, room) ∈ clients) :
    conn ∈ (fanOut writeFails typ clients).2 ↔
      (roomMatches room typ && writeFails conn) = true := by
  rw [fanOut_failed]
  constructor
  · intro hmem
    obtain ⟨p, hp, hpc⟩ := List.mem_map.1 hmem
    obtain ⟨hpin, hpm⟩ := List.mem_filter.1 hp
    obtain ⟨c, r⟩ := p
    simp only at hpc hpm
    subst hpc
    rw [room_unique hkeys h hpin] at hpm
    exact hpm
  · intro hm
    exact List.mem_map.2 ⟨(conn, room), List.mem_filter.2 ⟨h, hm⟩, rfl⟩

theorem SendNotification_clients (env : HubEnv) (hub : Hub) (notification : Notification)
    (hnew : isRecentNotification hub.recentNotifications
      (stampID env.now notification).ID = false) :
    (SendNotification env hub notification).hub.clients =
      removeFailed hub.clients
        (fanOut env.writeFails (stampID env.now notification).Typ hub.clients).2 := by
  simp only [SendNotification, hnew]
  rfl

theorem SendNotification_err (env : HubEnv) (hub : Hub) (notification : Notification) :
    (SendNotification env hub notification).err = none := by
  unfold SendNotification
  simp only
  split <;> rfl

/-- C17: for a notification that is not a duplicate, the registry after
`SendNotification` is the registry of before without the connections on which
the write failed, in the same order and with the same rooms; a connection stays
registered exactly when it was not written to or its write succeeded; the
writes go to every connection whose room matches, failed or not; and the call
returns `nil`. -/
theorem SendNotification_registry (env : HubEnv) (hub : Hub) (notification : Notification)
    (hkeys : (hub.clients.map Prod.fst).Nodup)
    (hnew : isRecentNotification hub.recentNotifications
      (stampID env.now notification).ID = false) :
    (SendNotification env hub notification).hub.clients =
      hub.clients.filter
        (fun p => !(roomMatches p.2 notification.Typ && env.writeFails p.1)) ∧
    (∀ conn room, (conn, room) ∈ hub.clients →
      ((conn, room) ∈ (SendNotification env hub notification).hub.clients ↔
        ¬ (conn ∈ (SendNotification env hub notification).writes.map Prod.fst ∧
           env.writeFails conn = true))) ∧
    (∀ p ∈ (SendNotification env hub notification).hub.clients, p ∈ hub.clients) ∧
    (SendNotification env hub notification).writes.map Prod.fst =
      (hub.clients.filter (fun p => roomMatches p.2 notification.Typ)).map Prod.fst ∧
    (SendNotification env hub notification).err = none := by
  have hw : (SendNotification env hub notification).writes.map Prod.fst =
      (fanOut env.writeFails notification.Typ hub.clients).1 := by
    rw [SendNotification_writes env hub notification hnew, stampID_Typ, List.map_map]
    exact List.map_id _
  have hc : (SendNotification env hub notification).hub.clients =
      hub.clients.filter
        (fun p => !(roomMatches p.2 notification.Typ && env.writeFails p.1)) := by
    rw [SendNotification_clients env hub notification hnew, stampID_Typ, removeFailed_eq_filter]
    apply List.filter_congr
    intro p hp
    obtain ⟨conn, room⟩ := p
    have hiff := mem_failed_iff env.writeFails notification.Typ hkeys hp
    by_cases hf : (roomMatches room notification.Typ && env.writeFails conn) = true
    · have := hiff.2 hf
      simp [this, hf]
    · have : ¬ conn ∈ (fanOut env.writeFails notification.Typ hub.clients).2 :=
        fun hmem => hf (hiff.1 hmem)
      simp only [this, not_false_eq_true, decide_True]
      cases hb : (roomMatches room notification.Typ && env.writeFails conn) with
      | true => exact absurd hb hf
      | false => rfl
  refine ⟨hc, ?_, ?_, ?_, SendNotification_err env hub notification⟩
  · intro conn room hmem
    rw [hc, hw, mem_written_iff env.writeFails notification.Typ hkeys hmem, List.mem_filter]
    cases roomMatches room notification.Typ <;> cases env.writeFails conn <;> simp [hmem]
  · intro p hp
    rw [hc] at hp
    exact (List.mem_filter.1 hp).1
  · rw [hw, fanOut_written]

/-- Witness of C17: the `kitchen` subscriber is visited first and its write
fails; the `orders` subscriber is written to all the same, and the registry
loses the `kitchen` subscriber only. -/
theorem SendNotification_registry_witness :
    (SendNotification secondFailsEnv ⟨[], kitchenFirst⟩ statusNote).hub.clients =
      [(1, "orders"), (3, "dashboard")] ∧
    (SendNotification secondFailsEnv ⟨[], kitchenFirst⟩ statusNote).writes.map Prod.fst =
      [2, 1] :=
  ⟨(SendNotification_registry secondFailsEnv ⟨[], kitchenFirst⟩ statusNote
      (by decide) (by decide)).1.trans (by decide),
   (SendNotification_registry secondFailsEnv ⟨[], kitchenFirst⟩ statusNote
      (by decide) (by decide)).2.2.2.1.trans (by decide)⟩

/-! ## Deleting an order -/

/-- C15: a successful `DeleteOrder` leaves the order rows other than the one
with the identifier, the notification rows other than those referring to it,
and every table row, each as it was; a failing one leaves the database as it
was; the call succeeds whenever the driver reports no error, the notification
rows being deleted before the order row they refer to; and when no order row
has the identifier (and every notification row refers to an order row, as the
foreign key demands) the database after the call is the database before it. -/
theorem DeleteOrder_effect (env : Env) (db : DB) (orderID : Int) :
    (∀ db1, DeleteOrder env db orderID = (db1, none) →
      db1.orders = db.orders.filter (fun o => o.id != orderID) ∧
      db1.notifications = db.notifications.filter (fun n => n.order_id != orderID) ∧
      db1.tables = db.tables) ∧
    (∀ e, (DeleteOrder env db orderID).2 = some e → (DeleteOrder env db orderID).1 = db) ∧
    (env.fails .beginTx = false → env.fails .deleteNotifications = false →
      env.fails .deleteOrder = false → env.fails .commit = false →
      (DeleteOrder env db orderID).2 = none) ∧
    ((∀ o ∈ db.orders, o.id ≠ orderID) →
      (∀ n ∈ db.notifications, ∃ o ∈ db.orders, o.id = n.order_id) →
      (DeleteOrder env db orderID).1 = db) := by
  rw [DeleteOrder_eq]
  refine ⟨?_, ?_, ?_, ?_⟩
  · intro db1 h
    split at h
    · cases h
    · split at h
      · cases h
      · split at h
        · cases h
        · split at h
          · cases h
          · cases h
            exact ⟨rfl, rfl, rfl⟩
  · intro e h
    split
    · rfl
    · split
      · rfl
      · split
        · rfl
        · split
          · rfl
          · rename_i h0 h1 h2 h3
            simp [h0, h1, h2, h3] at h
  · intro h0 h1 h2 h3
    simp [h0, h1, h2, h3]
  · intro hno href
    have ho : db.orders.filter (fun o => o.id != orderID) = db.orders := by
      rw [List.filter_eq_self]
      intro o hmem
      simpa using hno o hmem
    have hn : db.notifications.filter (fun n => n.order_id != orderID) = db.notifications := by
      rw [List.filter_eq_self]
      intro n hmem
      obtain ⟨o, hom, hid⟩ := href n hmem
      have := hno o hom
      rw [hid] at this
      simpa using this
    rw [ho, hn]
    split
    · rfl
    · split
      · rfl
      · split
        · rfl
        · split <;> rfl

/-- Witness of C15: deleting order 1 removes its row and its audit row and
keeps the two tables; deleting the unknown order 99 changes nothing. -/
theorem DeleteOrder_effect_witness :
    (DeleteOrder (Env.ok 0 "") auditedDB 1).1.orders = [] ∧
    (DeleteOrder (Env.ok 0 "") auditedDB 1).1.notifications = [] ∧
    (DeleteOrder (Env.ok 0 "") auditedDB 1).1.tables = auditedDB.tables ∧
    (DeleteOrder (Env.ok 0 "") auditedDB 99).1 = auditedDB :=
  have h := (DeleteOrder_effect (Env.ok 0 "") auditedDB 1).1 _ rfl
  ⟨h.1.trans (by decide), h.2.1.trans (by decide), h.2.2,
   (DeleteOrder_effect (Env.ok 0 "") auditedDB 99).2.2.2
     (by
       intro o ho
       rw [List.mem_singleton.1 ho]
       decide)
     (by
       intro n hn
       rw [List.mem_singleton.1 hn]
       exact ⟨_, List.mem_singleton.2 rfl, rfl⟩)⟩

/-! ## Room validation of `handleWebSocket` -/

theorem mem_registerClient (clients : List (Conn × String)) (conn : Conn) (room : String) :
    (conn, room) ∈ registerClient clients conn room := by
  unfold registerClient
  split
  · rename_i hany
    obtain ⟨p, hp, hpc⟩ := List.any_eq_true.1 hany
    exact List.mem_map.2 ⟨p, hp, by simp [hpc]⟩
  · simp

/-- C16: for a request other than `OPTIONS`, `handleWebSocket` goes on to the
upgrade exactly when the `room` value is empty, `kitchen`, `dashboard` or
`orders`, and an upgraded connection is registered under that value, the empty
value standing for `orders`; every other value is answered 400 "Invalid room"
whatever the upgrade would have returned, and the registry is left as it was. -/
theorem handleWebSocket_room (method roomQuery : String) (upgrade : Option Conn)
    (clients : List (Conn × String)) (hm : method ≠ "OPTIONS") :
    ((roomQuery = "" ∨ roomQuery = "kitchen" ∨ roomQuery = "dashboard" ∨
        roomQuery = "orders") →
      ∀ conn, upgrade = some conn →
        handleWebSocket method roomQuery upgrade clients =
          (.connected conn (if roomQuery = "" then "orders" else roomQuery),
           registerClient clients conn (if roomQuery = "" then "orders" else roomQuery)) ∧
        (conn, if roomQuery = "" then "orders" else roomQuery) ∈
          (handleWebSocket method roomQuery upgrade clients).2) ∧
    (¬ (roomQuery = "" ∨ roomQuery = "kitchen" ∨ roomQuery = "dashboard" ∨
        roomQuery = "orders") →
      handleWebSocket method roomQuery upgrade clients =
        (.rejected 400 "Invalid room", clients)) ∧
    ((∃ conn room, (handleWebSocket method roomQuery upgrade clients).1 =
        .connected conn room) ↔
      ((roomQuery = "" ∨ roomQuery = "kitchen" ∨ roomQuery = "dashboard" ∨
        roomQuery = "orders") ∧ upgrade.isSome = true)) := by
  have hm1 : (method == "OPTIONS") = false := by simpa using hm
  have hvalid : (roomQuery = "" ∨ roomQuery = "kitchen" ∨ roomQuery = "dashboard" ∨
        roomQuery = "orders") →
      ∀ conn, upgrade = some conn →
        handleWebSocket method roomQuery upgrade clients =
          (.connected conn (if roomQuery = "" then "orders" else roomQuery),
           registerClient clients conn (if roomQuery = "" then "orders" else roomQuery)) := by
    intro hroom conn hup
    subst hup
    rcases hroom with h | h | h | h <;> subst h <;> simp [handleWebSocket, hm1]
  have hinvalid : ¬ (roomQuery = "" ∨ roomQuery = "kitchen" ∨ roomQuery = "dashboard" ∨
        roomQuery = "orders") →
      handleWebSocket method roomQuery upgrade clients =
        (.rejected 400 "Invalid room", clients) := by
    intro hroom
    simp only [not_or] at hroom
    obtain ⟨h1, h2, h3, h4⟩ := hroom
    simp [handleWebSocket, hm1, h1, h2, h3, h4]
  refine ⟨?_, hinvalid, ?_⟩
  · intro hroom conn hup
    refine ⟨hvalid hroom conn hup, ?_⟩
    rw [hvalid hroom conn hup]
    exact mem_registerClient _ _ _
  · constructor
    · rintro ⟨conn, room, hc⟩
      by_cases hroom : (roomQuery = "" ∨ roomQuery = "kitchen" ∨ roomQuery = "dashboard" ∨
          roomQuery = "orders")
      · refine ⟨hroom, ?_⟩
        cases hup : upgrade with
        | some c => rfl
        | none =>
          subst hup
          rcases hroom with h | h | h | h <;> subst h <;> simp [handleWebSocket, hm1] at hc
      · rw [hinvalid hroom] at hc
        cases hc
    · rintro ⟨hroom, hup⟩
      cases hu : upgrade with
      | none => rw [hu] at hup; cases hup
      | some c =>
        have heq := hvalid hroom c hu
        rw [hu] at heq
        exact ⟨c, _, by rw [heq]⟩

/-- Witness of C16: a request without a room is registered under `orders`; a
request for the room `bar` is answered 400 and registers nothing. -/
theorem handleWebSocket_room_witness :
    handleWebSocket "GET" "" (some 4) threeRooms =
      (.connected 4 "orders", threeRooms ++ [(4, "orders")]) ∧
    handleWebSocket "GET" "bar" (some 4) threeRooms =
      (.rejected 400 "Invalid room", threeRooms) :=
  ⟨(((handleWebSocket_room "GET" "" (some 4) threeRooms (by decide)).1
      (Or.inl rfl) 4 rfl).1).trans (by decide),
   (handleWebSocket_room "GET" "bar" (some 4) threeRooms (by decide)).2.1 (by decide)⟩

/-! ## Workflows under failing activities -/

theorem StoreOrder_of_error {env : Env} {db : DB} {order : Order} {e : Err}
    (h : (StoreOrder env db order).2 = some e) : StoreOrder env db order = (db, some e) := by
  rcases StoreOrder_fst env db order with hsame | hok
  · exact Prod.ext hsame h
  · rw [hok] at h
    cases h

theorem storeOrderActivity_of_error {env : Env} {w : World} {order : Order} {e : Err}
    (h : (StoreOrder env w.db order).2 = some e) :
    storeOrderActivity order env w = (w, .error e) := by
  simp [storeOrderActivity, StoreOrder_of_error h]

theorem storeOrderActivity_of_ok {env : Env} {w : World} {order : Order} {db1 : DB}
    (h : StoreOrder env w.db order = (db1, none)) :
    storeOrderActivity order env w = ({ w with db := db1 }, .ok ()) := by
  simp [storeOrderActivity, h]

theorem PublishOrderEvent_of_error {env : Env} {bus : Bus} {order : Order} {e : Err}
    (h : (PublishOrderEvent env bus order).2 = some e) :
    PublishOrderEvent env bus order = (bus, some e) := by
  unfold PublishOrderEvent at h ⊢
  by_cases h1 : env.fails .dial = true
  · simpa [h1] using h
  · by_cases h2 : env.fails .channel = true
    · simpa [h1, h2] using h
    · by_cases h3 : env.fails .queueDeclare = true
      · simpa [h1, h2, h3] using h
      · by_cases h4 : env.fails .publish = true
        · simpa [h1, h2, h3, h4] using h
        · simp [h1, h2, h3, h4] at h

theorem PublishOrderEvent_of_ok {env : Env} {bus : Bus} {order : Order}
    (h : (PublishOrderEvent env bus order).2 = none) :
    PublishOrderEvent env bus order =
      (bus ++ [{ queue := "order.created", body := orderNotificationJSON order env.now }],
       none) := by
  unfold PublishOrderEvent at h ⊢
  by_cases h1 : env.fails .dial = true
  · simp [h1] at h
  · by_cases h2 : env.fails .channel = true
    · simp [h1, h2] at h
    · by_cases h3 : env.fails .queueDeclare = true
      · simp [h1, h2, h3] at h
      · by_cases h4 : env.fails .publish = true
        · simp [h1, h2, h3, h4] at h
        · simp [h1, h2, h3, h4]

/-- Whether `PublishOrderEvent` fails does not depend on the messages already
held by the broker. -/
theorem PublishOrderEvent_snd (env : Env) (bus bus1 : Bus) (order : Order) :
    (PublishOrderEvent env bus order).2 = (PublishOrderEvent env bus1 order).2 := by
  unfold PublishOrderEvent
  by_cases h1 : env.fails .dial = true
  · simp [h1]
  · by_cases h2 : env.fails .channel = true
    · simp [h1, h2]
    · by_cases h3 : env.fails .queueDeclare = true
      · simp [h1, h2, h3]
      · by_cases h4 : env.fails .publish = true <;> simp [h1, h2, h3, h4]

theorem publishOrderEventActivity_of_error {env : Env} {w : World} {order : Order} {e : Err}
    (h : (PublishOrderEvent env w.bus order).2 = some e) :
    publishOrderEventActivity order env w = (w, .error e) := by
  simp [publishOrderEventActivity, PublishOrderEvent_of_error h]

theorem publishOrderEventActivity_of_ok {env : Env} {w : World} {order : Order}
    (h : (PublishOrderEvent env w.bus order).2 = none) :
    publishOrderEventActivity order env w =
      ({ w with bus := w.bus ++
          [{ queue := "order.created", body := orderNotificationJSON order env.now }] },
       .ok ()) := by
  simp [publishOrderEventActivity, PublishOrderEvent_of_ok h]

/-- The three attempts of `executeActivity`. -/
theorem executeActivity_eq {α : Type} (activity : Env → World → World × Except Err α)
    (envs : Nat → Env) (w : World) :
    executeActivity activity envs w =
      match activity (envs 0) w with
      | (w1, .ok a) => (w1, .ok a)
      | (w1, .error _) =>
        match activity (envs 1) w1 with
        | (w2, .ok a) => (w2, .ok a)
        | (w2, .error _) => activity (envs 2) w2 := by
  simp only [executeActivity, MaximumAttempts, retry]

/-- Three failing attempts of `StoreOrder`: the activity fails with the last
error and the world is as before. -/
theorem executeActivity_store_fails {envs : Nat → Env} {w : World} {order : Order}
    {e0 e1 e2 : Err}
    (h0 : (StoreOrder (envs 0) w.db order).2 = some e0)
    (h1 : (StoreOrder (envs 1) w.db order).2 = some e1)
    (h2 : (StoreOrder (envs 2) w.db order).2 = some e2) :
    executeActivity (storeOrderActivity order) envs w = (w, .error e2) := by
  rw [executeActivity_eq, storeOrderActivity_of_error h0]
  simp only
  rw [storeOrderActivity_of_error h1]
  simp only
  rw [storeOrderActivity_of_error h2]

/-- A successful `StoreOrder` activity: one of the three attempts succeeded on
the database of before the call, and the broker is untouched. -/
theorem executeActivity_store_ok {envs : Nat → Env} {w w1 : World} {order : Order}
    (h : executeActivity (storeOrderActivity order) envs w = (w1, .ok ())) :
    w1.bus = w.bus ∧ ∃ k, k < 3 ∧ StoreOrder (envs k) w.db order = (w1.db, none) := by
  rw [executeActivity_eq] at h
  cases h0 : (StoreOrder (envs 0) w.db order).2 with
  | none =>
    have hs : StoreOrder (envs 0) w.db order = ((StoreOrder (envs 0) w.db order).1, none) :=
      Prod.ext rfl h0
    rw [storeOrderActivity_of_ok hs] at h
    simp only [Prod.mk.injEq, and_true] at h
    subst h
    exact ⟨rfl, 0, by omega, hs⟩
  | some e0 =>
    rw [storeOrderActivity_of_error h0] at h
    simp only at h
    cases h1 : (StoreOrder (envs 1) w.db order).2 with
    | none =>
      have hs : StoreOrder (envs 1) w.db order = ((StoreOrder (envs 1) w.db order).1, none) :=
        Prod.ext rfl h1
      rw [storeOrderActivity_of_ok hs] at h
      simp only [Prod.mk.injEq, and_true] at h
      subst h
      exact ⟨rfl, 1, by omega, hs⟩
    | some e1 =>
      rw [storeOrderActivity_of_error h1] at h
      simp only at h
      cases h2 : (StoreOrder (envs 2) w.db order).2 with
      | none =>
        have hs : StoreOrder (envs 2) w.db order = ((StoreOrder (envs 2) w.db order).1, none) :=
          Prod.ext rfl h2
        rw [storeOrderActivity_of_ok hs] at h
        simp only [Prod.mk.injEq, and_true] at h
        subst h
        exact ⟨rfl, 2, by omega, hs⟩
      | some e2 =>
        rw [storeOrderActivity_of_error h2] at h
        simp at h

/-- Three failing attempts of `PublishOrderEvent`. -/
theorem executeActivity_publish_fails {envs : Nat → Env} {w : World} {order : Order}
    {p0 p1 p2 : Err}
    (h0 : (PublishOrderEvent (envs 0) w.bus order).2 = some p0)
    (h1 : (PublishOrderEvent (envs 1) w.bus order).2 = some p1)
    (h2 : (PublishOrderEvent (envs 2) w.bus order).2 = some p2) :
    executeActivity (publishOrderEventActivity order) envs w = (w, .error p2) := by
  rw [executeActivity_eq, publishOrderEventActivity_of_error h0]
  simp only
  rw [publishOrderEventActivity_of_error h1]
  simp only
  rw [publishOrderEventActivity_of_error h2]

/-- C11: `OrderWorkflow` stops at the first activity whose three attempts all
fail.  When the three attempts of `StoreOrder` fail, the workflow returns the
error of the last attempt, the database and the broker are as before the
workflow (no row of the order, nothing published), and the result is the same
whatever the environments of `PublishOrderEvent`.  When `StoreOrder` succeeds
and the three attempts of `PublishOrderEvent` fail, the workflow returns the
error of the last publish attempt, nothing is published, and the database is the
one the successful `StoreOrder` attempt left, with the row of the order. -/
theorem OrderWorkflow_first_failure (envs : Nat → Nat → Env) (w : World) (order : Order) :
    (∀ e0 e1 e2, (StoreOrder (envs 0 0) w.db order).2 = some e0 →
      (StoreOrder (envs 0 1) w.db order).2 = some e1 →
      (StoreOrder (envs 0 2) w.db order).2 = some e2 →
      OrderWorkflow envs w order = (w, some e2) ∧
      ∀ envs1 : Nat → Nat → Env, envs1 0 = envs 0 →
        OrderWorkflow envs1 w order = (w, some e2)) ∧
    (∀ w1 p0 p1 p2, executeActivity (storeOrderActivity order) (envs 0) w = (w1, .ok ()) →
      (PublishOrderEvent (envs 1 0) w1.bus order).2 = some p0 →
      (PublishOrderEvent (envs 1 1) w1.bus order).2 = some p1 →
      (PublishOrderEvent (envs 1 2) w1.bus order).2 = some p2 →
      OrderWorkflow envs w order = (w1, some p2) ∧ w1.bus = w.bus ∧
      ∃ k, k < 3 ∧ StoreOrder (envs 0 k) w.db order = (w1.db, none) ∧
        w1.db.orders = w.db.orders ++
          [{ id := (envs 0 k).newID, table_number := order.TableNumber, items := order.Items,
             status := "Pending", total_amount := totalAmount (envs 0 k).fused order.Items,
             assigned_to := none }]) := by
  constructor
  · intro e0 e1 e2 h0 h1 h2
    have hgen : ∀ envs1 : Nat → Nat → Env, envs1 0 = envs 0 →
        OrderWorkflow envs1 w order = (w, some e2) := by
      intro envs1 henv
      unfold OrderWorkflow
      rw [henv, executeActivity_store_fails h0 h1 h2]
    exact ⟨hgen envs rfl, hgen⟩
  · intro w1 p0 p1 p2 hstore hp0 hp1 hp2
    obtain ⟨hbus, k, hk, hok⟩ := executeActivity_store_ok hstore
    refine ⟨?_, hbus, k, hk, hok, (StoreOrder_ok hok).2.1⟩
    unfold OrderWorkflow
    rw [hstore]
    simp only
    rw [executeActivity_publish_fails hp0 hp1 hp2]

/-- Witness of C11: with the database down the workflow fails at `StoreOrder`
and nothing is stored or published; with the broker down the order is stored
and the workflow fails at `PublishOrderEvent`. -/
theorem OrderWorkflow_first_failure_witness :
    OrderWorkflow downEnvs ⟨emptyDB, []⟩ soupAndBread =
      (⟨emptyDB, []⟩, some (.io .beginTx)) ∧
    OrderWorkflow brokerDownEnvs ⟨emptyDB, []⟩ soupAndBread =
      (⟨(StoreOrder (brokerDownEnvs 0 0) emptyDB soupAndBread).1, []⟩, some (.io .dial)) :=
  ⟨((OrderWorkflow_first_failure downEnvs ⟨emptyDB, []⟩ soupAndBread).1
      (.io .beginTx) (.io .beginTx) (.io .beginTx) rfl rfl rfl).1,
   ((OrderWorkflow_first_failure brokerDownEnvs ⟨emptyDB, []⟩ soupAndBread).2
      ⟨(StoreOrder (brokerDownEnvs 0 0) emptyDB soupAndBread).1, []⟩
      (.io .dial) (.io .dial) (.io .dial) rfl rfl rfl rfl).1⟩

/-- C12: when `StoreOrder` fails on its first two attempts and succeeds on the
third, the `StoreOrder` activity succeeds and the database is the one the third
attempt produces from the database of before the workflow: one order row, one
audit row and one table insert or update more, the failed attempts having left
nothing; the workflow then returns what `PublishOrderEvent` returns, so it
succeeds as soon as one of the three publish attempts does. -/
theorem OrderWorkflow_third_attempt (envs : Nat → Nat → Env) (w : World) (order : Order)
    (db1 : DB) (e0 e1 : Err)
    (h0 : (StoreOrder (envs 0 0) w.db order).2 = some e0)
    (h1 : (StoreOrder (envs 0 1) w.db order).2 = some e1)
    (h2 : StoreOrder (envs 0 2) w.db order = (db1, none)) :
    executeActivity (storeOrderActivity order) (envs 0) w = ({ w with db := db1 }, .ok ()) ∧
    (OrderWorkflow envs w order).1.db = db1 ∧
    db1.orders = w.db.orders ++
      [{ id := (envs 0 2).newID, table_number := order.TableNumber, items := order.Items,
         status := "Pending", total_amount := totalAmount (envs 0 2).fused order.Items,
         assigned_to := none }] ∧
    db1.notifications = w.db.notifications ++
      [{ order_id := (envs 0 2).newID, notification_type := "new_order",
         message := "New order received for table " ++ toString order.TableNumber }] ∧
    db1.tables = (if tableExists w.db order.TableNumber
                  then (updateTableOccupied w.db order.TableNumber).tables
                  else (insertTableOccupied w.db order.TableNumber).tables) ∧
    (∀ k, k < 3 → (PublishOrderEvent (envs 1 k) w.bus order).2 = none →
      (OrderWorkflow envs w order).2 = none) := by
  have hstore : executeActivity (storeOrderActivity order) (envs 0) w =
      ({ w with db := db1 }, .ok ()) := by
    rw [executeActivity_eq, storeOrderActivity_of_error h0]
    simp only
    rw [storeOrderActivity_of_error h1]
    simp only
    rw [storeOrderActivity_of_ok h2]
  obtain ⟨_, ho, hn, ht⟩ := StoreOrder_ok h2
  have hwf : OrderWorkflow envs w order =
      match executeActivity (publishOrderEventActivity order) (envs 1) { w with db := db1 } with
      | (w2, .error err) => (w2, some err)
      | (w2, .ok _) => (w2, none) := by
    unfold OrderWorkflow
    rw [hstore]
  have hdb : ∀ env (w0 : World), (publishOrderEventActivity order env w0).1.db = w0.db := by
    intro env w0
    unfold publishOrderEventActivity
    split <;> rfl
  refine ⟨hstore, ?_, ho, hn, ht, ?_⟩
  · rw [hwf, executeActivity_eq]
    cases hp0 : (PublishOrderEvent (envs 1 0) w.bus order).2 with
    | none =>
      rw [publishOrderEventActivity_of_ok (w := { w with db := db1 }) hp0]
    | some p0 =>
      rw [publishOrderEventActivity_of_error (w := { w with db := db1 }) hp0]
      simp only
      cases hp1 : (PublishOrderEvent (envs 1 1) w.bus order).2 with
      | none =>
        rw [publishOrderEventActivity_of_ok (w := { w with db := db1 }) hp1]
      | some p1 =>
        rw [publishOrderEventActivity_of_error (w := { w with db := db1 }) hp1]
        simp only
        cases hp2 : (PublishOrderEvent (envs 1 2) w.bus order).2 with
        | none =>
          rw [publishOrderEventActivity_of_ok (w := { w with db := db1 }) hp2]
        | some p2 =>
          rw [publishOrderEventActivity_of_error (w := { w with db := db1 }) hp2]
  · intro k hk hpk
    rw [hwf, executeActivity_eq]
    cases hp0 : (PublishOrderEvent (envs 1 0) w.bus order).2 with
    | none =>
      rw [publishOrderEventActivity_of_ok (w := { w with db := db1 }) hp0]
    | some p0 =>
      rw [publishOrderEventActivity_of_error (w := { w with db := db1 }) hp0]
      simp only
      cases hp1 : (PublishOrderEvent (envs 1 1) w.bus order).2 with
      | none =>
        rw [publishOrderEventActivity_of_ok (w := { w with db := db1 }) hp1]
      | some p1 =>
        rw [publishOrderEventActivity_of_error (w := { w with db := db1 }) hp1]
        simp only
        cases hp2 : (PublishOrderEvent (envs 1 2) w.bus order).2 with
        | none =>
          rw [publishOrderEventActivity_of_ok (w := { w with db := db1 }) hp2]
        | some p2 =>
          exfalso
          have hk3 : k = 0 ∨ k = 1 ∨ k = 2 := by omega
          rcases hk3 with rfl | rfl | rfl
          · rw [hp0] at hpk; cases hpk
          · rw [hp1] at hpk; cases hpk
          · rw [hp2] at hpk; cases hpk

/-- Witness of C12: the first two attempts of `StoreOrder` fail at `Commit`,
the third succeeds; the workflow succeeds and the database is the one a single
`StoreOrder` produces from the empty database. -/
theorem OrderWorkflow_third_attempt_witness :
    (OrderWorkflow flakyEnvs ⟨emptyDB, []⟩ soupAndBread).2 = none ∧
    (OrderWorkflow flakyEnvs ⟨emptyDB, []⟩ soupAndBread).1.db =
      (StoreOrder (Env.ok 1 "2025-01-01T12:00:00Z") emptyDB soupAndBread).1 ∧
    (StoreOrder (Env.ok 1 "2025-01-01T12:00:00Z") emptyDB soupAndBread).1.orders.length = 1 ∧
    (StoreOrder (Env.ok 1 "2025-01-01T12:00:00Z") emptyDB soupAndBread).1.notifications.length
      = 1 ∧
    (StoreOrder (Env.ok 1 "2025-01-01T12:00:00Z") emptyDB soupAndBread).1.tables.length = 1 :=
  have h := OrderWorkflow_third_attempt flakyEnvs ⟨emptyDB, []⟩ soupAndBread
    (StoreOrder (Env.ok 1 "2025-01-01T12:00:00Z") emptyDB soupAndBread).1
    (.io .commit) (.io .commit) rfl rfl rfl
  ⟨h.2.2.2.2.2 0 (by decide) rfl, h.2.1, by decide, by decide, by decide⟩

/-! ## Answers of the HTTP handlers -/

/-- What `createOrder` answers once the workflow is started does not depend on
how the workflow ends. -/
theorem createOrder_response (order : Order) (workflowID : String) (envs : Nat → Nat → Env)
    (w : World) :
    (createOrder (some order) false workflowID envs w).2 =
      .created workflowID order.ID "Pending" := by
  simp [createOrder]

/-- The handler `updateOrder` waits for its workflow: when the workflow fails,
the answer is status 500 with the error of the workflow. -/
theorem updateOrder_reports_failure (id : Int) (status : String) (envs : Nat → Nat → Env)
    (envRead : Env) (w : World) (e : Err)
    (h : (UpdateOrderStatusWorkflow envs w id status).2 = some e) :
    (updateOrder (some id) (some status) false envs envRead w).2 =
      .internalServerError (.workflow e) := by
  unfold updateOrder
  simp only [Bool.false_eq_true, if_false]
  split
  · rename_i w1 err heq
    rw [heq] at h
    simp only [Option.some.injEq] at h
    rw [h]
  · rename_i w1 heq
    rw [heq] at h
    cases h

/-- C13, evaluated on a create request while the database is down: the three
attempts of `StoreOrder` fail, the workflow fails with the `BeginTx` error and
nothing is stored, and `createOrder` answers 201 with `order_id` 0 and status
`Pending`; an update request in the same conditions is answered 500. -/
theorem createOrder_answers_created_on_failure :
    (OrderWorkflow downEnvs ⟨emptyDB, []⟩ soupAndBread).2 = some (.io .beginTx) ∧
    createOrder (some soupAndBread) false "order-1" downEnvs ⟨emptyDB, []⟩ =
      (⟨emptyDB, []⟩, .created "order-1" 0 "Pending") ∧
    updateOrder (some 1) (some "Completed") false downEnvs (Env.ok 0 "") ⟨twoTablesDB, []⟩ =
      (⟨twoTablesDB, []⟩, .internalServerError (.workflow (.io .beginTx))) := by
  decide

/-! ## Referential integrity across calls -/

theorem refIntegrity_step (db : DB) (op : StoreOp) (h : RefIntegrity db) :
    RefIntegrity (step db op) := by
  cases op with
  | store env order =>
    simp only [step]
    rcases StoreOrder_fst env db order with hsame | hok
    · rw [hsame]
      exact h
    · obtain ⟨_, ho, hn, _⟩ := StoreOrder_ok hok
      intro n hmem
      rw [hn] at hmem
      rw [ho]
      rcases List.mem_append.1 hmem with hold | hnew
      · obtain ⟨o, hom, hid⟩ := h n hold
        exact ⟨o, List.mem_append_left _ hom, hid⟩
      · rw [List.mem_singleton.1 hnew]
        exact ⟨_, List.mem_append_right _ (List.mem_singleton.2 rfl), rfl⟩
  | update env orderID status chefName =>
    simp only [step]
    rcases UpdateOrderStatus_fst env db orderID status chefName with hsame | hok
    · rw [hsame]
      exact h
    · obtain ⟨hex, ho, _, hn⟩ := UpdateOrderStatus_ok hok
      have hkeep : ∀ o ∈ db.orders, ∃ o1 ∈ (setOrderStatus db orderID status).orders,
          o1.id = o.id := by
        intro o hom
        simp only [setOrderStatus]
        refine ⟨_, List.mem_map.2 ⟨o, hom, rfl⟩, ?_⟩
        split <;> rfl
      intro n hmem
      rw [hn] at hmem
      rw [ho]
      rcases List.mem_append.1 hmem with hold | hnew
      · obtain ⟨o, hom, hid⟩ := h n hold
        obtain ⟨o1, ho1, hid1⟩ := hkeep o hom
        exact ⟨o1, ho1, hid1.trans hid⟩
      · rw [List.mem_singleton.1 hnew]
        obtain ⟨o, hom, hid⟩ := hex
        obtain ⟨o1, ho1, hid1⟩ := hkeep o hom
        exact ⟨o1, ho1, hid1.trans hid⟩
  | delete env orderID =>
    simp only [step]
    rw [DeleteOrder_eq]
    split
    · exact h
    · split
      · exact h
      · split
        · exact h
        · split
          · exact h
          · intro n hmem
            obtain ⟨hn, hne⟩ := List.mem_filter.1 hmem
            obtain ⟨o, hom, hid⟩ := h n hn
            refine ⟨o, List.mem_filter.2 ⟨hom, ?_⟩, hid⟩
            rw [hid]
            exact hne

/-- Every database reached from the empty one by store calls satisfies the
foreign key. -/
theorem refIntegrity_run (ops : List StoreOp) : RefIntegrity (run emptyDB ops) := by
  have hgen : ∀ (ops : List StoreOp) (db : DB), RefIntegrity db → RefIntegrity (run db ops) := by
    intro ops
    induction ops with
    | nil => intro db h; exact h
    | cons op rest ih =>
      intro db h
      exact ih (step db op) (refIntegrity_step db op h)
  apply hgen ops emptyDB
  intro n hn
  simp [emptyDB] at hn

end Bistro92
